import Mathlib

set_option maxRecDepth 20000
set_option maxHeartbeats 16000000

/-!
Verification of the Greek (el) text-normalization grammars of
NeMo-text-processing against their natural-language specification.

The pynini finite-state transducers are shallowly embedded as relations
from input strings to the list of their output strings
(`Rel := List Char → List (List Char)`).  Concatenation of transducers
enumerates all splits of the input, union appends output lists,
composition feeds every output of the first relation to the second,
`pynutil.insert`/`pynutil.delete` are crosses with the empty string, and
difference with an unweighted acceptor removes the pairs whose output
string is accepted (OpenFst realises difference by composing with the
complement of the acceptor, hence it filters the output side).
-/

namespace ElTN

/-- Strings are modelled as lists of characters. -/
abbrev Str := List Char

/-- A pynini transduction: for each input string, the list of output
strings the transducer relates it to. -/
abbrev Rel := Str → List Str

/-- All decompositions of a string into a prefix/suffix pair. -/
def splits : Str → List (Str × Str)
  | [] => [([], [])]
  | c :: cs => ([], c :: cs) :: (splits cs).map (fun p => (c :: p.1, p.2))

/-- Concatenation of two transducers (`fst1 + fst2` in pynini): the input
splits into two parts, each transduced independently, outputs concatenated. -/
def seqR (R S : Rel) : Rel := fun s =>
  (splits s).flatMap (fun p =>
    (R p.1).flatMap (fun o1 => (S p.2).map (fun o2 => o1 ++ o2)))

/-- Union of two transducers (`fst1 | fst2` in pynini). -/
def unionR (R S : Rel) : Rel := fun s => R s ++ S s

/-- `pynini.cross(a, b)`: maps exactly the string `a` to the string `b`. -/
def crossR (a b : Str) : Rel := fun s => if s = a then [b] else []

/-- `pynini.string_map`: union of crosses given by a list of pairs. -/
def strMapR (ps : List (Str × Str)) : Rel := fun s =>
  (ps.filter (fun p => p.1 = s)).map (fun p => p.2)

/-- `pynutil.insert(b)`: consumes nothing, emits `b`. -/
def insertR (b : Str) : Rel := crossR [] b

/-- `pynutil.delete(a)`: consumes exactly `a`, emits nothing. -/
def deleteR (a : Str) : Rel := crossR a []

/-- `pynutil.delete` of a union of strings. -/
def deleteAnyR (as : List Str) : Rel := fun s => if s ∈ as then [[]] else []

/-- Composition `fst1 @ fst2`: every output of the first is fed to the second. -/
def compR (R S : Rel) : Rel := fun s => (R s).flatMap S

/-- Difference `fst - pynini.accep(w)` of a transducer with a one-string
unweighted acceptor: the pairs whose output equals `w` are removed
(difference composes with the complement of the acceptor, which matches
on the output tape of the transducer). -/
def minusOutR (R : Rel) (wrd : Str) : Rel := fun s => (R s).filter (fun o => o ≠ wrd)

/-- `insert_space` from `graph_utils`: `pynutil.insert(" ")`. -/
def insertSpaceR : Rel := insertR [' ']

/-- Kleene closure of a relation, fuel-bounded; each iteration must consume
at least one input character (true of every closure argument used here),
so fuel equal to the input length is exhaustive. -/
def starR (R : Rel) : Nat → Rel
  | 0, s => if s = [] then [[]] else []
  | n + 1, s =>
    (if s = [] then [[]] else []) ++
      ((splits s).filter (fun p => p.1 ≠ [])).flatMap (fun p =>
        (R p.1).flatMap (fun o1 => (starR R n p.2).map (fun o2 => o1 ++ o2)))

/-- The separator characters accepted by `filter_punctuation`
(`cardinal_separator = pynini.string_map([".", NEMO_SPACE])`). -/
def isSep (c : Char) : Bool := c = '.' || c = ' '

/-! ## Cardinal tagger (`el/taggers/cardinal.py`) -/

/-- Modelled from the spec: the `data/number/digit.tsv` table (inverted),
digit → neuter word.  The same ten words appear verbatim in the inline
`digit_to_word` map of `el/taggers/telephone.py` (minus zero, which lives
in `zero.tsv`). -/
def digitMap : List (Str × Str) :=
  [("1".data, "ένα".data), ("2".data, "δύο".data), ("3".data, "τρία".data),
   ("4".data, "τέσσερα".data), ("5".data, "πέντε".data), ("6".data, "έξι".data),
   ("7".data, "επτά".data), ("8".data, "οκτώ".data), ("9".data, "εννέα".data)]

/-- `digit`: the inverted digit table as a transducer. -/
def digitR : Rel := strMapR digitMap

/-- `teens`: the inline 11–19 map of `CardinalFst.__init__`. -/
def teensR : Rel := strMapR
  [("11".data, "έντεκα".data), ("12".data, "δώδεκα".data), ("13".data, "δεκατρία".data),
   ("14".data, "δεκατέσσερα".data), ("15".data, "δεκαπέντε".data), ("16".data, "δεκαέξι".data),
   ("17".data, "δεκαεπτά".data), ("18".data, "δεκαοκτώ".data), ("19".data, "δεκαεννέα".data)]

/-- `decades`: the inline decade-word map ("10" … "90"). -/
def decadesR : Rel := strMapR
  [("10".data, "δέκα".data), ("20".data, "είκοσι".data), ("30".data, "τριάντα".data),
   ("40".data, "σαράντα".data), ("50".data, "πενήντα".data), ("60".data, "εξήντα".data),
   ("70".data, "εβδομήντα".data), ("80".data, "ογδόντα".data), ("90".data, "ενενήντα".data)]

/-- `graph_tens = teens | decades | decades + insert_space + digit`. -/
def graphTens : Rel := unionR teensR (unionR decadesR (seqR decadesR (seqR insertSpaceR digitR)))

/-- `graph_hundred = pynini.cross("1", "εκατόν")`. -/
def graphHundred : Rel := crossR "1".data "εκατόν".data

/-- `graph_hundreds_prefix`: the inline 200–900 neuter map. -/
def graphHundredsPref : Rel := strMapR
  [("2".data, "διακόσια".data), ("3".data, "τριακόσια".data), ("4".data, "τετρακόσια".data),
   ("5".data, "πεντακόσια".data), ("6".data, "εξακόσια".data), ("7".data, "επτακόσια".data),
   ("8".data, "οκτακόσια".data), ("9".data, "εννιακόσια".data)]

/-- `graph_hundred_alone = pynini.cross("100", "εκατό")`. -/
def graphHundredAlone : Rel := crossR "100".data "εκατό".data

/-- `graph_hundreds`: union of the six hundreds patterns. -/
def graphHundreds : Rel :=
  unionR graphHundredAlone
    (unionR (seqR graphHundred (seqR insertSpaceR graphTens))
      (unionR (seqR graphHundred (seqR insertSpaceR digitR))
        (unionR (seqR graphHundredsPref (crossR "00".data []))
          (unionR (seqR graphHundredsPref (seqR insertSpaceR graphTens))
            (seqR graphHundredsPref (seqR insertSpaceR digitR))))))

/-- `graph_hundreds_component = graph_hundreds | pynutil.delete("0") + graph_tens`. -/
def graphHundredsComponent : Rel :=
  unionR graphHundreds (seqR (deleteR "0".data) graphTens)

/-- `graph_hundreds_component_at_least_one_non_zero`. -/
def hundredsCompNZ : Rel :=
  unionR graphHundredsComponent (seqR (deleteR "00".data) digitR)

/-- `graph_thousand_alone = pynini.cross("001", "χίλια")`. -/
def graphThousandAlone : Rel := crossR "001".data "χίλια".data

/-- `graph_thousands_prefix = (hundreds_component_at_least_one_non_zero -
pynini.accep("ένα")) + insert_space + pynutil.insert("χιλιάδες")`. -/
def graphThousandsPref : Rel :=
  seqR (minusOutR hundredsCompNZ "ένα".data) (seqR insertSpaceR (insertR "χιλιάδες".data))

/-- `graph_thousands = graph_thousand_alone | graph_thousands_prefix`. -/
def graphThousands : Rel := unionR graphThousandAlone graphThousandsPref

/-- `graph_thousands_component`. -/
def graphThousandsComponent : Rel :=
  unionR (seqR (deleteR "000".data) hundredsCompNZ)
    (seqR graphThousands (seqR insertSpaceR (unionR hundredsCompNZ (deleteR "000".data))))

/-- `graph_million_one = pynini.cross("001", "ένα εκατομμύριο")`. -/
def graphMillionOne : Rel := crossR "001".data "ένα εκατομμύριο".data

/-- `graph_millions_prefix`. -/
def graphMillionsPref : Rel :=
  seqR (minusOutR hundredsCompNZ "ένα".data) (seqR insertSpaceR (insertR "εκατομμύρια".data))

/-- `graph_millions`. -/
def graphMillions : Rel :=
  unionR (seqR (deleteR "000".data) graphThousandsComponent)
    (unionR (seqR graphMillionOne
        (seqR insertSpaceR (unionR graphThousandsComponent (deleteR "000000".data))))
      (seqR graphMillionsPref
        (seqR insertSpaceR (unionR graphThousandsComponent (deleteR "000000".data)))))

/-- `graph_billion_one = pynini.cross("001", "ένα δισεκατομμύριο")`. -/
def graphBillionOne : Rel := crossR "001".data "ένα δισεκατομμύριο".data

/-- `graph_billions_prefix`. -/
def graphBillionsPref : Rel :=
  seqR (minusOutR hundredsCompNZ "ένα".data) (seqR insertSpaceR (insertR "δισεκατομμύρια".data))

/-- `graph_billions`. -/
def graphBillions : Rel :=
  unionR (seqR (deleteR "000".data) graphMillions)
    (unionR (seqR graphBillionOne
        (seqR insertSpaceR (unionR graphMillions (deleteR "000000000".data))))
      (seqR graphBillionsPref
        (seqR insertSpaceR (unionR graphMillions (deleteR "000000000".data)))))

/-- `graph_trillion_one = pynini.cross("001", "ένα τρισεκατομμύριο")`. -/
def graphTrillionOne : Rel := crossR "001".data "ένα τρισεκατομμύριο".data

/-- `graph_trillions_prefix`. -/
def graphTrillionsPref : Rel :=
  seqR (minusOutR hundredsCompNZ "ένα".data) (seqR insertSpaceR (insertR "τρισεκατομμύρια".data))

/-- `graph_trillions`. -/
def graphTrillions : Rel :=
  unionR (seqR (deleteR "000".data) graphBillions)
    (unionR (seqR graphTrillionOne
        (seqR insertSpaceR (unionR graphBillions (deleteR "000000000000".data))))
      (seqR graphTrillionsPref
        (seqR insertSpaceR (unionR graphBillions (deleteR "000000000000".data)))))

/-- The zero-padding stage of `CardinalFst.graph`: a `cdrewrite` that inserts
zeros at `[BOS]`, composed with `NEMO_DIGIT ** 15`, which forces exactly
`15 - length` insertions (no output for longer inputs). -/
def padTo15 (s : Str) : Option Str :=
  if s.length ≤ 15 then some (List.replicate (15 - s.length) '0' ++ s) else none

/-- The space-collapsing `cdrewrite` (`delete_extra_spaces`): every run of
two or more spaces becomes a single space. -/
def collapseSpaces : Str → Str
  | [] => []
  | c :: rest =>
    match rest with
    | [] => [c]
    | d :: _ =>
      if c = ' ' && d = ' ' then collapseSpaces rest else c :: collapseSpaces rest

/-- `clean_leading_space` / `clean_trailing_space`: `delete_space` (a closure
over whitespace) applied at `[BOS]` and `[EOS]`. -/
def trimSpaces (s : Str) : Str :=
  (((s.dropWhile (fun c => c = ' ')).reverse).dropWhile (fun c => c = ' ')).reverse

/-- The full space cleanup composed onto `self.graph` (lines 263–270). -/
def cleanSpaces (s : Str) : Str := trimSpaces (collapseSpaces s)

/-- `self.graph` before punctuation filtering (`graph_unfiltered`): the
first-digit-non-zero acceptor, zero padding to width 15, `graph_trillions`,
the space cleanup, and the union with `graph_zero` ("0" → "μηδέν", the
`zero.tsv` table modelled from the spec). -/
def cardUnfiltered : Rel := fun s =>
  (match s with
    | [] => []
    | c :: _ =>
      if c ≠ '0' ∧ s.all Char.isDigit then
        match padTo15 s with
        | some t => (graphTrillions t).map cleanSpaces
        | none => []
      else []) ++
  (if s = "0".data then ["μηδέν".data] else [])

/-- The grouped branch of `filter_punctuation` at a fixed size `k` of the
leftmost group: `up_to_three_digits` is `k` digits (minus the all-zero
strings), followed by a deleted separator and `closure(exactly_three_digits
+ delete(separator)) + exactly_three_digits`, recovered by `tailGroups`. -/
def tailGroups : Str → List Str
  | [a, b, c] => if [a, b, c].all Char.isDigit then [[a, b, c]] else []
  | a :: b :: c :: d :: rest =>
    if [a, b, c].all Char.isDigit ∧ isSep d then
      (tailGroups rest).map (fun t => a :: b :: c :: t)
    else []
  | _ => []

/-- One leftmost-group size of the separator branch of `filter_punctuation`. -/
def branch2At (k : Nat) (s : Str) : List Str :=
  let pre := s.take k
  if pre.length = k ∧ pre.all Char.isDigit ∧ pre.any (fun c => c ≠ '0') then
    match s.drop k with
    | d :: r => if isSep d then (tailGroups r).map (fun t => pre ++ t) else []
    | [] => []
  else []

/-- The separator branch of `filter_punctuation` (leftmost group of 1–3
digits, not all zero). -/
def branch2 (s : Str) : List Str := branch2At 1 s ++ branch2At 2 s ++ branch2At 3 s

/-- The input side of `filter_punctuation`'s `cardinal_string`: either a
plain digit run (identity) or the separator-grouped branch, yielding the
recovered digit strings. -/
def fpInputs (s : Str) : List Str :=
  (if s ≠ [] ∧ s.all Char.isDigit then [s] else []) ++ branch2 s

/-- `self.graph` after `filter_punctuation` (`cardinal_string @ fst`). -/
def cardGraph : Rel := fun s => (fpInputs s).flatMap cardUnfiltered

/-! ## Time tagger (`el/taggers/time.py`) -/

/-- `delete_leading_zero_single = pynini.cdrewrite(pynutil.delete("0"),
"[BOS]", NEMO_DIGIT, NEMO_SIGMA)`: deletes a zero at the start of the
string when a digit follows (a single application — position 1 of the
input is no longer at `[BOS]`). -/
def delLeadingZeroSingle : Str → Str
  | '0' :: c :: rest => if c.isDigit then c :: rest else '0' :: c :: rest
  | s => s

/-- `minutes_graph = NEMO_DIGIT ** 2 @ delete_leading_zero_single @
cardinal_graph` (and `seconds_graph`, which is the identical expression). -/
def minutesGraph : Rel := fun s =>
  if s.length = 2 ∧ s.all Char.isDigit then cardGraph (delLeadingZeroSingle s) else []

/-! ## Money tagger (`el/taggers/money.py`) -/

/-- The double-quote character. -/
def dq : Char := Char.ofNat 34

/-- `currency_symbols`: symbol → major-currency word. -/
def currencySymbolsR : Rel := strMapR
  [("€".data, "ευρώ".data), ("$".data, "δολάρια".data),
   ("£".data, "λίρες".data), ("¥".data, "γιεν".data)]

/-- `currency_minor`: symbol → minor-currency word.  This table is built in
`MoneyFst.__init__` (lines 57–61) but never composed into any pattern. -/
def currencyMinorTable : List (Str × Str) :=
  [("€".data, "λεπτά".data), ("$".data, "σεντς".data), ("£".data, "πένες".data)]

/-- The `currency_minor` transducer over the table. -/
def currencyMinorR : Rel := strMapR currencyMinorTable

/-- `integer_graph = pynini.closure(NEMO_DIGIT, 1) @ cardinal_graph`. -/
def integerGraph : Rel := fun s =>
  if s ≠ [] ∧ s.all Char.isDigit then cardGraph s else []

/-- `fractional_graph = NEMO_DIGIT ** 2 @ delete_leading_zero @
cardinal_graph` (money's `delete_leading_zero` is the same `cdrewrite` as
time's `delete_leading_zero_single`). -/
def fractionalGraph : Rel := fun s =>
  if s.length = 2 ∧ s.all Char.isDigit then cardGraph (delLeadingZeroSingle s) else []

/-- `pynutil.delete(decimal_separator)` with `decimal_separator = "," | "."`. -/
def deleteDecimalSepR : Rel := deleteAnyR [",".data, ".".data]

/-- `graph_symbol_before` (pattern 1, `€50`). -/
def graphSymbolBefore : Rel :=
  seqR (insertR "currency: \"".data)
    (seqR currencySymbolsR
      (seqR (insertR "\" integer_part: \"".data)
        (seqR integerGraph (insertR "\"".data))))

/-- `graph_symbol_after` (pattern 2, `50€`). -/
def graphSymbolAfter : Rel :=
  seqR (insertR "integer_part: \"".data)
    (seqR integerGraph
      (seqR (insertR "\" currency: \"".data)
        (seqR currencySymbolsR (insertR "\"".data))))

/-- `graph_with_cents_before` (pattern 3, `€10,50`); note the literally
inserted `currency_minor: "λεπτά"`. -/
def graphWithCentsBefore : Rel :=
  seqR (insertR "currency: \"".data)
    (seqR currencySymbolsR
      (seqR (insertR "\" integer_part: \"".data)
        (seqR integerGraph
          (seqR (insertR "\"".data)
            (seqR deleteDecimalSepR
              (seqR (insertR " fractional_part: \"".data)
                (seqR fractionalGraph
                  (insertR "\" currency_minor: \"λεπτά\"".data))))))))

/-- `graph_with_cents_after` (pattern 4, `10,50€`); again the literal
`currency_minor: "λεπτά"`. -/
def graphWithCentsAfter : Rel :=
  seqR (insertR "integer_part: \"".data)
    (seqR integerGraph
      (seqR (insertR "\"".data)
        (seqR deleteDecimalSepR
          (seqR (insertR " fractional_part: \"".data)
            (seqR fractionalGraph
              (seqR (insertR "\" currency: \"".data)
                (seqR currencySymbolsR
                  (insertR "\" currency_minor: \"λεπτά\"".data))))))))

/-- The combined money classifier graph (lines 120–125). -/
def moneyTagGraph : Rel :=
  unionR graphWithCentsBefore
    (unionR graphWithCentsAfter (unionR graphSymbolBefore graphSymbolAfter))

/-! ## Money verbalizer (`el/verbalizers/money.py`) -/

/-- `delete_space` from `en/graph_utils` (modelled from the spec): deletes
an optional run of whitespace. -/
def deleteSpaceR : Rel := fun s => if s.all (fun c => c = ' ') then [[]] else []

/-- `pynini.closure(NEMO_NOT_QUOTE, 1)`: a non-empty run of characters
other than the double quote (identity acceptor). -/
def notQuotePlus : Rel := fun s =>
  if s ≠ [] ∧ s.all (fun c => c ≠ dq) then [s] else []

/-- The common shape of the four field extractors of the money verbalizer:
`pynutil.delete(label) + delete_space + pynutil.delete("\"") +
closure(NEMO_NOT_QUOTE, 1) + pynutil.delete("\"")`. -/
def fieldV (label : Str) : Rel :=
  seqR (deleteR label)
    (seqR deleteSpaceR (seqR (deleteR [dq]) (seqR notQuotePlus (deleteR [dq]))))

/-- The `currency` field extractor. -/
def currencyV : Rel := fieldV "currency:".data

/-- The `integer_part` field extractor. -/
def integerPartV : Rel := fieldV "integer_part:".data

/-- The `fractional_part` field extractor. -/
def fractionalPartV : Rel := fieldV "fractional_part:".data

/-- The `currency_minor` field extractor. -/
def currencyMinorV : Rel := fieldV "currency_minor:".data

/-- `graph_currency_first = currency + pynutil.insert(" ") + delete_space +
integer_part`. -/
def graphCurrencyFirst : Rel :=
  seqR currencyV (seqR (insertR " ".data) (seqR deleteSpaceR integerPartV))

/-- `graph_integer_first = integer_part + pynutil.insert(" ") +
delete_space + currency`. -/
def graphIntegerFirst : Rel :=
  seqR integerPartV (seqR (insertR " ".data) (seqR deleteSpaceR currencyV))

/-- `graph_with_cents`: currency, integer_part, " και ", fractional_part,
currency_minor — the currency word is emitted first. -/
def graphWithCentsV : Rel :=
  seqR currencyV
    (seqR (insertR " ".data)
      (seqR deleteSpaceR
        (seqR integerPartV
          (seqR deleteSpaceR
            (seqR (insertR " και ".data)
              (seqR fractionalPartV
                (seqR deleteSpaceR (seqR (insertR " ".data) currencyMinorV))))))))

/-- `graph_with_cents_v2`: the amount-first with-cents pattern.  It is
defined in the source (lines 111–122) but *not* included in the final
union. -/
def graphWithCentsV2 : Rel :=
  seqR integerPartV
    (seqR deleteSpaceR
      (seqR (insertR " ".data)
        (seqR fractionalPartV
          (seqR deleteSpaceR
            (seqR (insertR " ".data)
              (seqR currencyV
                (seqR deleteSpaceR (seqR (insertR " και ".data) currencyMinorV))))))))

/-- The money verbalizer graph: `graph_with_cents | graph_currency_first |
graph_integer_first` (line 126; `graph_with_cents_v2` is omitted). -/
def moneyVerbGraph : Rel :=
  unionR graphWithCentsV (unionR graphCurrencyFirst graphIntegerFirst)

/-! ## Ordinal tagger (`el/taggers/ordinal.py`) -/

/-- `ordinal_roots`: the stem table including the decade stems keyed by
"10"…"90" and the irregular top case "100" → "εκατοστ".  It is built in
`OrdinalFst.__init__` (lines 47–69) but never composed into any graph. -/
def ordinalRoots : List (Str × Str) :=
  [("1".data, "πρώτ".data), ("2".data, "δεύτερ".data), ("3".data, "τρίτ".data),
   ("4".data, "τέταρτ".data), ("5".data, "πέμπτ".data), ("6".data, "έκτ".data),
   ("7".data, "έβδομ".data), ("8".data, "όγδο".data), ("9".data, "ένατ".data),
   ("10".data, "δέκατ".data), ("11".data, "ενδέκατ".data), ("12".data, "δωδέκατ".data),
   ("20".data, "εικοστ".data), ("30".data, "τριακοστ".data), ("40".data, "τεσσαρακοστ".data),
   ("50".data, "πεντηκοστ".data), ("60".data, "εξηκοστ".data), ("70".data, "εβδομηκοστ".data),
   ("80".data, "ογδοηκοστ".data), ("90".data, "ενενηκοστ".data), ("100".data, "εκατοστ".data)]

/-- `ordinal_digit_roots`: unit stems 1–9. -/
def ordinalDigitRoots : Rel := strMapR
  [("1".data, "πρώτ".data), ("2".data, "δεύτερ".data), ("3".data, "τρίτ".data),
   ("4".data, "τέταρτ".data), ("5".data, "πέμπτ".data), ("6".data, "έκτ".data),
   ("7".data, "έβδομ".data), ("8".data, "όγδο".data), ("9".data, "ένατ".data)]

/-- `ordinal_tens_roots`: decade stems keyed by the single digit 1–9. -/
def ordinalTensRoots : Rel := strMapR
  [("1".data, "δέκατ".data), ("2".data, "εικοστ".data), ("3".data, "τριακοστ".data),
   ("4".data, "τεσσαρακοστ".data), ("5".data, "πεντηκοστ".data), ("6".data, "εξηκοστ".data),
   ("7".data, "εβδομηκοστ".data), ("8".data, "ογδοηκοστ".data), ("9".data, "ενενηκοστ".data)]

/-- `simple_teens`: the 11/12 stems. -/
def simpleTeens : Rel := strMapR
  [("11".data, "ενδέκατ".data), ("12".data, "δωδέκατ".data)]

/-- `teens_13_19_masc`. -/
def teens1319Masc : Rel := strMapR
  [("13".data, "δέκατος τρίτος".data), ("14".data, "δέκατος τέταρτος".data),
   ("15".data, "δέκατος πέμπτος".data), ("16".data, "δέκατος έκτος".data),
   ("17".data, "δέκατος έβδομος".data), ("18".data, "δέκατος όγδοος".data),
   ("19".data, "δέκατος ένατος".data)]

/-- `teens_13_19_fem`. -/
def teens1319Fem : Rel := strMapR
  [("13".data, "δέκατη τρίτη".data), ("14".data, "δέκατη τέταρτη".data),
   ("15".data, "δέκατη πέμπτη".data), ("16".data, "δέκατη έκτη".data),
   ("17".data, "δέκατη έβδομη".data), ("18".data, "δέκατη όγδοη".data),
   ("19".data, "δέκατη ένατη".data)]

/-- `teens_13_19_neut`. -/
def teens1319Neut : Rel := strMapR
  [("13".data, "δέκατο τρίτο".data), ("14".data, "δέκατο τέταρτο".data),
   ("15".data, "δέκατο πέμπτο".data), ("16".data, "δέκατο έκτο".data),
   ("17".data, "δέκατο έβδομο".data), ("18".data, "δέκατο όγδοο".data),
   ("19".data, "δέκατο ένατο".data)]

/-- `graph_decades_masc = pynini.cross("0", "") + ordinal_tens_roots +
masc_ending`: the zero is deleted *before* the decade digit is read, so the
input language is "0" followed by a digit, not a digit followed by "0". -/
def graphDecadesMasc : Rel :=
  seqR (crossR "0".data []) (seqR ordinalTensRoots (insertR "ος".data))

/-- `graph_decades_fem`. -/
def graphDecadesFem : Rel :=
  seqR (crossR "0".data []) (seqR ordinalTensRoots (insertR "η".data))

/-- `graph_decades_neut`. -/
def graphDecadesNeut : Rel :=
  seqR (crossR "0".data []) (seqR ordinalTensRoots (insertR "ο".data))

/-- `two_digit_not_teen = (NEMO_DIGIT - "0" - "1") + (NEMO_DIGIT - "0")`
(identity acceptor). -/
def twoDigitNotTeen : Rel := fun s =>
  match s with
  | [a, b] =>
    if a.isDigit ∧ a ≠ '0' ∧ a ≠ '1' ∧ b.isDigit ∧ b ≠ '0' then [[a, b]] else []
  | _ => []

/-- `graph_compound_tens_masc`. -/
def graphCompoundTensMasc : Rel :=
  seqR ordinalTensRoots
    (seqR (insertR "ος".data)
      (seqR insertSpaceR (seqR ordinalDigitRoots (insertR "ος".data))))

/-- `graph_compound_tens_fem`. -/
def graphCompoundTensFem : Rel :=
  seqR ordinalTensRoots
    (seqR (insertR "η".data)
      (seqR insertSpaceR (seqR ordinalDigitRoots (insertR "η".data))))

/-- `graph_compound_tens_neut`. -/
def graphCompoundTensNeut : Rel :=
  seqR ordinalTensRoots
    (seqR (insertR "ο".data)
      (seqR insertSpaceR (seqR ordinalDigitRoots (insertR "ο".data))))

/-- `graph_ordinal_masc` (union of digit, teens, decades, compound). -/
def graphOrdinalMasc : Rel :=
  unionR (seqR ordinalDigitRoots (insertR "ος".data))
    (unionR
      (unionR (seqR simpleTeens (insertR "ος".data))
        (unionR teens1319Masc (crossR "10".data "δέκατος".data)))
      (unionR graphDecadesMasc (compR twoDigitNotTeen graphCompoundTensMasc)))

/-- `graph_ordinal_fem`. -/
def graphOrdinalFem : Rel :=
  unionR (seqR ordinalDigitRoots (insertR "η".data))
    (unionR
      (unionR (seqR simpleTeens (insertR "η".data))
        (unionR teens1319Fem (crossR "10".data "δέκατη".data)))
      (unionR graphDecadesFem (compR twoDigitNotTeen graphCompoundTensFem)))

/-- `graph_ordinal_neut`. -/
def graphOrdinalNeut : Rel :=
  unionR (seqR ordinalDigitRoots (insertR "ο".data))
    (unionR
      (unionR (seqR simpleTeens (insertR "ο".data))
        (unionR teens1319Neut (crossR "10".data "δέκατο".data)))
      (unionR graphDecadesNeut (compR twoDigitNotTeen graphCompoundTensNeut)))

/-- `graph_masc_tagged`. -/
def graphMascTagged : Rel :=
  seqR (insertR "integer: \"".data)
    (seqR graphOrdinalMasc (insertR "\" morphosyntactic_features: \"masc\"".data))

/-- `graph_fem_tagged`. -/
def graphFemTagged : Rel :=
  seqR (insertR "integer: \"".data)
    (seqR graphOrdinalFem (insertR "\" morphosyntactic_features: \"fem\"".data))

/-- `graph_neut_tagged`. -/
def graphNeutTagged : Rel :=
  seqR (insertR "integer: \"".data)
    (seqR graphOrdinalNeut (insertR "\" morphosyntactic_features: \"neut\"".data))

/-- `number = pynini.closure(NEMO_DIGIT, 1, 2)` (identity acceptor for one
or two digits — "100" has three and is not accepted). -/
def ordinalNumberR : Rel := fun s =>
  if (s.length = 1 ∨ s.length = 2) ∧ s.all Char.isDigit then [s] else []

/-- The final ordinal classifier graph in deterministic mode (lines
240–246): number plus a deleted gender marker (or a period, defaulting to
masculine), composed with the corresponding tagged graph. -/
def ordinalTagGraph : Rel :=
  unionR (compR (seqR ordinalNumberR (deleteAnyR ["ος".data, "ός".data])) graphMascTagged)
    (unionR (compR (seqR ordinalNumberR (deleteAnyR ["η".data, "ή".data, "α".data, "ά".data])) graphFemTagged)
      (unionR (compR (seqR ordinalNumberR (deleteAnyR ["ο".data, "ό".data])) graphNeutTagged)
        (compR (seqR ordinalNumberR (deleteR ".".data)) graphMascTagged)))

/-! ## Telephone tagger (`el/taggers/telephone.py`) -/

/-- The inline `digit_to_word` map of `TelephoneFst.__init__`. -/
def telDigitMap : List (Str × Str) :=
  [("0".data, "μηδέν".data), ("1".data, "ένα".data), ("2".data, "δύο".data),
   ("3".data, "τρία".data), ("4".data, "τέσσερα".data), ("5".data, "πέντε".data),
   ("6".data, "έξι".data), ("7".data, "επτά".data), ("8".data, "οκτώ".data),
   ("9".data, "εννέα".data)]

/-- `digit_to_word` as a transducer (and `NEMO_DIGIT @ digit_to_word`,
which is the same relation since every key is a digit). -/
def digitToWordR : Rel := strMapR telDigitMap

/-- `delete_separator`, one of `" "`, `"-"`, `"("`, `")"`, `"."`. -/
def telSepDelR : Rel := deleteAnyR [" ".data, "-".data, "(".data, ")".data, ".".data]

/-- `optional_separator = pynini.closure(delete_separator, 0, 1)`. -/
def optSepR : Rel := unionR (crossR [] []) telSepDelR

/-- One iteration of `phone_digits`: `(NEMO_DIGIT @ digit_to_word) +
optional_separator + insert_space`. -/
def phoneItemR : Rel := seqR digitToWordR (seqR optSepR insertSpaceR)

/-- `phone_digits = closure(item) + (NEMO_DIGIT @ digit_to_word)`; the
closure fuel is the input length (each iteration consumes a character). -/
def phoneDigitsR : Rel := fun s => seqR (starR phoneItemR s.length) digitToWordR s

/-- `greek_prefix` (lines 94–97): the Greek number-shape acceptor ("69" or
"2").  It is built but never composed into `graph_number_only`. -/
def greekPrefixShapes : List Str := ["69".data, "2".data]

/-- `graph_number_only = pynutil.insert("number_part: \"") + (phone_digits
@ clean_spaces) + pynutil.insert("\"")`. -/
def graphNumberOnly : Rel :=
  seqR (insertR "number_part: \"".data)
    (seqR (fun s => (phoneDigitsR s).map collapseSpaces) (insertR "\"".data))

/-! ## Spec-level notions used to state the claims -/

/-- The digit characters of a token, in order. -/
def digitsOf (s : Str) : Str := s.filter Char.isDigit

/-- A character the cardinal surface form may contain: a digit or a
grouping separator. -/
def charOK (c : Char) : Bool := c.isDigit || isSep c

/-- The tail of a correctly grouped digit string: three-digit groups
joined by grouping separators ("strictly at 3-digit boundaries from the
right"). -/
inductive TailG : Str → Prop
  | base (a b c : Char) : a.isDigit → b.isDigit → c.isDigit → TailG [a, b, c]
  | cons (a b c d : Char) (r : Str) :
      a.isDigit → b.isDigit → c.isDigit → isSep d → TailG r →
      TailG (a :: b :: c :: d :: r)

/-- A correctly punctuation-grouped digit string: a leftmost group of 1–3
digits that is not all zeros, a separator, and three-digit groups at every
further 3-digit boundary. -/
def WellGrouped (s : Str) : Prop :=
  ∃ pre d r, pre ≠ [] ∧ pre.length ≤ 3 ∧ (∀ c ∈ pre, c.isDigit) ∧
    (∃ c ∈ pre, c ≠ '0') ∧ isSep d = true ∧ TailG r ∧ s = pre ++ d :: r

/-- The character for a decimal digit value. -/
def finDigitChar (d : Fin 10) : Char := Char.ofNat (48 + d.val)

/-- The spoken word for a decimal digit value (via the telephone digit
table). -/
def wordOf (d : Fin 10) : Str := (telDigitMap.getD d.val ([], [])).2

/-- Digit words joined by single spaces (the expected digit-by-digit
reading of a telephone number). -/
def joinWords : List (Fin 10) → Str
  | [] => []
  | [d] => wordOf d
  | d :: e :: rest => wordOf d ++ ' ' :: joinWords (e :: rest)

/-- Digit words each followed by one space (the output of the closure part
of `phone_digits`). -/
def joinSp : List (Fin 10) → Str
  | [] => []
  | d :: rest => wordOf d ++ ' ' :: joinSp rest

/-- No two adjacent spaces (the fixed points of `collapseSpaces`). -/
def NoDoubleSpace (s : Str) : Prop :=
  List.Chain' (fun a b => ¬(a = ' ' ∧ b = ' ')) s

/-- The tail part of a grouped number encoding: three-digit groups joined
by the separator (the leftmost group is handled separately). -/
def tailJoin (sep : Char) : List Str → Str
  | [] => []
  | [g] => g
  | g :: g' :: rest => g ++ sep :: tailJoin sep (g' :: rest)

end ElTN

/-! ## Helper lemmas and claim theorems -/

namespace ElTN

theorem mem_splits : ∀ (s a b : Str), (a, b) ∈ splits s ↔ s = a ++ b := by
  intro s
  induction s with
  | nil =>
    intro a b
    constructor
    · intro h
      simp only [splits, List.mem_singleton, Prod.mk.injEq] at h
      simp [h.1, h.2]
    · intro h
      have ha : a = [] := by
        cases a with
        | nil => rfl
        | cons x xs => simp at h
      subst ha
      have hb : b = [] := by simpa using h.symm
      subst hb
      simp [splits]
  | cons c cs ih =>
    intro a b
    constructor
    · intro h
      simp only [splits, List.mem_cons, List.mem_map] at h
      rcases h with h | ⟨p, hp, hpe⟩
      · rw [show a = [] from ((Prod.mk.injEq ..).mp h.symm |>.1).symm,
            show b = c :: cs from ((Prod.mk.injEq ..).mp h.symm |>.2).symm]
        rfl
      · obtain ⟨h1, h2⟩ := (Prod.mk.injEq ..).mp hpe
        subst h2
        rw [← h1]
        have := (ih p.1 p.2).mp hp
        simp [this]
    · intro h
      cases a with
      | nil =>
        have hb : c :: cs = b := by simpa using h
        subst hb
        simp [splits]
      | cons x xs =>
        have hx : x = c ∧ xs ++ b = cs := by
          simpa using h.symm
        obtain ⟨rfl, h2⟩ := hx
        replace h2 := h2.symm
        simp only [splits, List.mem_cons, List.mem_map]
        right
        exact ⟨(xs, b), (ih xs b).mpr h2, rfl⟩

theorem mem_seqR {R S : Rel} {s o : Str} :
    o ∈ seqR R S s ↔ ∃ a b o1 o2, s = a ++ b ∧ o1 ∈ R a ∧ o2 ∈ S b ∧ o = o1 ++ o2 := by
  unfold seqR
  simp only [List.mem_flatMap, List.mem_map]
  constructor
  · rintro ⟨⟨a, b⟩, hab, o1, h1, o2, h2, rfl⟩
    exact ⟨a, b, o1, o2, (mem_splits s a b).mp hab, h1, h2, rfl⟩
  · rintro ⟨a, b, o1, o2, hs, h1, h2, rfl⟩
    exact ⟨(a, b), (mem_splits s a b).mpr hs, o1, h1, o2, h2, rfl⟩

end ElTN
namespace ElTN

theorem mem_unionR {R S : Rel} {s o : Str} : o ∈ unionR R S s ↔ o ∈ R s ∨ o ∈ S s := by
  simp [unionR]

theorem mem_seqR_intro {R S : Rel} {o1 o2 : Str} (a b : Str)
    (h1 : o1 ∈ R a) (h2 : o2 ∈ S b) : (o1 ++ o2) ∈ seqR R S (a ++ b) :=
  mem_seqR.mpr ⟨a, b, o1, o2, rfl, h1, h2, rfl⟩

theorem seqR_nil_of_left {R S : Rel} {s : Str}
    (h : ∀ t, t <+: s → R t = []) : seqR R S s = [] := by
  rw [List.eq_nil_iff_forall_not_mem]
  intro o ho
  obtain ⟨a, b, o1, o2, hs, h1, _, _⟩ := mem_seqR.mp ho
  rw [h a ⟨b, hs.symm⟩] at h1
  simp at h1

theorem seqR_nil_of_right {R S : Rel} {s : Str}
    (h : ∀ t, t <:+ s → S t = []) : seqR R S s = [] := by
  rw [List.eq_nil_iff_forall_not_mem]
  intro o ho
  obtain ⟨a, b, o1, o2, hs, _, h2, _⟩ := mem_seqR.mp ho
  rw [h b ⟨a, hs.symm⟩] at h2
  simp at h2

theorem mem_insertR {b s o : Str} : o ∈ insertR b s ↔ s = [] ∧ o = b := by
  unfold insertR crossR
  by_cases h : s = [] <;> simp [h]

theorem seqR_endsWith {R S : Rel} {lit : Str}
    (hS : ∀ t o, o ∈ S t → ∃ p, o = p ++ lit) :
    ∀ s o, o ∈ seqR R S s → ∃ p, o = p ++ lit := by
  intro s o h
  obtain ⟨a, b, o1, o2, _, _, h2, rfl⟩ := mem_seqR.mp h
  obtain ⟨p, rfl⟩ := hS b o2 h2
  exact ⟨o1 ++ p, by rw [List.append_assoc]⟩

theorem insertR_endsWith {lit : Str} : ∀ s o, o ∈ insertR lit s → ∃ p, o = p ++ lit := by
  intro s o h
  exact ⟨[], by simpa using (mem_insertR.mp h).2⟩

theorem graphWithCentsBefore_endsWith :
    ∀ s o, o ∈ graphWithCentsBefore s →
      ∃ p, o = p ++ "\" currency_minor: \"λεπτά\"".data := by
  unfold graphWithCentsBefore
  exact seqR_endsWith (seqR_endsWith (seqR_endsWith (seqR_endsWith (seqR_endsWith
    (seqR_endsWith (seqR_endsWith (seqR_endsWith insertR_endsWith)))))))

theorem graphWithCentsAfter_endsWith :
    ∀ s o, o ∈ graphWithCentsAfter s →
      ∃ p, o = p ++ "\" currency_minor: \"λεπτά\"".data := by
  unfold graphWithCentsAfter
  exact seqR_endsWith (seqR_endsWith (seqR_endsWith (seqR_endsWith (seqR_endsWith
    (seqR_endsWith (seqR_endsWith (seqR_endsWith insertR_endsWith)))))))

end ElTN
namespace ElTN
theorem sep_not_digit {c : Char} (h : isSep c = true) : c.isDigit = false := by
  have h2 : c = '.' ∨ c = ' ' := by simpa [isSep] using h
  rcases h2 with rfl | rfl <;> rfl
end ElTN
namespace ElTN

theorem digit_not_sep {c : Char} (h : c.isDigit = true) : isSep c = false := by
  by_contra h2
  rw [← Bool.not_eq_true, Classical.not_not] at h2
  rw [sep_not_digit h2] at h
  exact Bool.false_ne_true h

theorem tailGroups_sound : ∀ r t, t ∈ tailGroups r →
    (∀ c ∈ r, charOK c = true) ∧ t = digitsOf r ∧ TailG r := by
  intro r
  induction r using tailGroups.induct with
  | case1 a b c hd =>
    intro t ht
    simp only [tailGroups, if_pos hd, List.mem_singleton] at ht
    subst ht
    have ha := List.all_eq_true.mp hd
    have hda : a.isDigit = true := by simpa using ha a (by simp)
    have hdb : b.isDigit = true := by simpa using ha b (by simp)
    have hdc : c.isDigit = true := by simpa using ha c (by simp)
    refine ⟨?_, ?_, TailG.base a b c hda hdb hdc⟩
    · intro x hx
      rcases List.mem_cons.mp hx with rfl | hx
      · simp [charOK, hda]
      rcases List.mem_cons.mp hx with rfl | hx
      · simp [charOK, hdb]
      rcases List.mem_cons.mp hx with rfl | hx
      · simp [charOK, hdc]
      · simp at hx
    · simp [digitsOf, List.filter_cons, hda, hdb, hdc]
  | case2 a b c hd =>
    intro t ht
    simp only [tailGroups, if_neg hd] at ht
    simp at ht
  | case3 a b c d rest h ih =>
    intro t ht
    simp only [tailGroups, if_pos h, List.mem_map] at ht
    obtain ⟨t', ht', rfl⟩ := ht
    obtain ⟨hchars, hdig, htg⟩ := ih t' ht'
    obtain ⟨hd, hsep⟩ := h
    have ha := List.all_eq_true.mp hd
    have hda : a.isDigit = true := by simpa using ha a (by simp)
    have hdb : b.isDigit = true := by simpa using ha b (by simp)
    have hdc : c.isDigit = true := by simpa using ha c (by simp)
    refine ⟨?_, ?_, TailG.cons a b c d rest hda hdb hdc hsep htg⟩
    · intro x hx
      rcases List.mem_cons.mp hx with rfl | hx
      · simp [charOK, hda]
      rcases List.mem_cons.mp hx with rfl | hx
      · simp [charOK, hdb]
      rcases List.mem_cons.mp hx with rfl | hx
      · simp [charOK, hdc]
      rcases List.mem_cons.mp hx with rfl | hx
      · simp [charOK, isSep] at hsep ⊢
        tauto
      · exact hchars x hx
    · simp [digitsOf, List.filter_cons, hda, hdb, hdc, sep_not_digit hsep]
      simpa [digitsOf] using hdig
  | case4 a b c d rest h =>
    intro t ht
    simp only [tailGroups, if_neg h] at ht
    simp at ht
  | case5 s h1 h2 =>
    intro t ht
    rcases s with _ | ⟨a, _ | ⟨b, _ | ⟨c, _ | ⟨d, rest⟩⟩⟩⟩
    · simp [tailGroups] at ht
    · simp [tailGroups] at ht
    · simp [tailGroups] at ht
    · exact absurd rfl (h1 a b c)
    · exact absurd rfl (h2 a b c d rest)

end ElTN
namespace ElTN

theorem branch2At_sound {k : Nat} {s D : Str} (hk1 : 1 ≤ k) (hk3 : k ≤ 3)
    (h : D ∈ branch2At k s) :
    (∀ c ∈ s, charOK c = true) ∧ D = digitsOf s ∧ WellGrouped s := by
  unfold branch2At at h
  by_cases hc : (s.take k).length = k ∧ (s.take k).all Char.isDigit ∧
      (s.take k).any (fun c => c ≠ '0')
  · rw [if_pos hc] at h
    obtain ⟨hlen, hdig, hnz⟩ := hc
    rcases hsplit : s.drop k with _ | ⟨d, r⟩
    · rw [hsplit] at h; simp at h
    · rw [hsplit] at h
      simp only at h
      by_cases hsep : isSep d = true
      · rw [if_pos hsep, List.mem_map] at h
        obtain ⟨t, ht, rfl⟩ := h
        obtain ⟨hch, hdg, htg⟩ := tailGroups_sound r t ht
        have hs : s = s.take k ++ d :: r := by
          rw [← hsplit, List.take_append_drop]
        have hpredig := List.all_eq_true.mp hdig
        refine ⟨?_, ?_, ?_⟩
        · intro c hcm
          rw [hs] at hcm
          rcases List.mem_append.mp hcm with hcm | hcm
          · have := hpredig c hcm
            simp [charOK]
            left
            simpa using this
          rcases List.mem_cons.mp hcm with rfl | hcm
          · simp [charOK, hsep]
          · exact hch c hcm
        · have hds : digitsOf s = List.filter Char.isDigit (List.take k s) ++ digitsOf r := by
            conv_lhs => rw [hs]
            simp [digitsOf, List.filter_append, List.filter_cons, sep_not_digit hsep]
          rw [hds, List.filter_eq_self.mpr (fun c hcm => by simpa using hpredig c hcm), ← hdg]
        · refine ⟨s.take k, d, r, ?_, ?_, ?_, ?_, hsep, htg, hs⟩
          · intro hnil
            rw [hnil] at hlen
            simp at hlen
            omega
          · omega
          · intro c hcm
            simpa using hpredig c hcm
          · obtain ⟨c, hcm, hcnz⟩ := List.any_eq_true.mp hnz
            exact ⟨c, hcm, by simpa using hcnz⟩
      · rw [if_neg hsep] at h
        simp at h
  · rw [if_neg hc] at h
    simp at h

theorem branch2_sound {s D : Str} (h : D ∈ branch2 s) :
    (∀ c ∈ s, charOK c = true) ∧ D = digitsOf s ∧ WellGrouped s := by
  unfold branch2 at h
  rcases List.mem_append.mp h with h | h
  · rcases List.mem_append.mp h with h | h
    · exact branch2At_sound (by omega) (by omega) h
    · exact branch2At_sound (by omega) (by omega) h
  · exact branch2At_sound (by omega) (by omega) h

theorem fpInputs_cases {s D : Str} (h : D ∈ fpInputs s) :
    (s ≠ [] ∧ s.all Char.isDigit = true ∧ D = s) ∨
      ((∀ c ∈ s, charOK c = true) ∧ D = digitsOf s ∧ WellGrouped s) := by
  unfold fpInputs at h
  rcases List.mem_append.mp h with h | h
  · by_cases hc : s ≠ [] ∧ s.all Char.isDigit
    · rw [if_pos hc] at h
      exact Or.inl ⟨hc.1, hc.2, (List.mem_singleton.mp h)⟩
    · rw [if_neg hc] at h; simp at h
  · exact Or.inr (branch2_sound h)

theorem digitsOf_eq_self {s : Str} (h : s.all Char.isDigit = true) : digitsOf s = s :=
  List.filter_eq_self.mpr (fun c hcm => List.all_eq_true.mp h c hcm)

theorem fpInputs_digits {s D : Str} (h : D ∈ fpInputs s) : D = digitsOf s := by
  rcases fpInputs_cases h with ⟨_, hall, rfl⟩ | ⟨_, hD, _⟩
  · exact (digitsOf_eq_self hall).symm
  · exact hD

end ElTN
namespace ElTN

theorem cardUnfiltered_nil_long {D : Str} (h : 15 < D.length) : cardUnfiltered D = [] := by
  unfold cardUnfiltered padTo15
  cases D with
  | nil => simp at h
  | cons c rest =>
    have h1 : ¬((c :: rest).length ≤ 15) := by omega
    have h2 : (c :: rest) ≠ "0".data := by
      intro he
      rw [show "0".data = ['0'] from rfl] at he
      rw [he] at h
      simp at h
    simp only [h1, if_false, h2, if_pos, if_neg, ite_false]
    split <;> simp [h2]

theorem cardUnfiltered_nil_leading_zero {rest : Str} (h : rest ≠ []) :
    cardUnfiltered ('0' :: rest) = [] := by
  unfold cardUnfiltered
  have h2 : ('0' :: rest) ≠ "0".data := by
    intro he
    rw [show "0".data = ['0'] from rfl] at he
    exact h (by simpa using he)
  simp [h2]

/-- Claim C5: for every input token containing a character other than a
digit or a grouping separator, a separator not placed as a 3-digit
grouping, a leading zero on a multi-digit value, or more than 15 digits,
the cardinal classifier produces no match (the empty output list); the
relation is total, so rejection is the only failure outcome. -/
theorem claim_C5_malformed_no_match (s : Str)
    (h : (∃ c ∈ s, charOK c = false) ∨
         ((∃ c ∈ s, isSep c = true) ∧ ¬WellGrouped s) ∨
         (∃ rest, digitsOf s = '0' :: rest ∧ rest ≠ []) ∨
         15 < (digitsOf s).length) :
    cardGraph s = [] := by
  unfold cardGraph
  rw [List.eq_nil_iff_forall_not_mem]
  intro o ho
  obtain ⟨D, hD, hDo⟩ := List.mem_flatMap.mp ho
  rcases h with ⟨c, hcm, hbad⟩ | ⟨⟨c, hcm, hcsep⟩, hng⟩ | ⟨rest, hdz, hrne⟩ | hlong
  · rcases fpInputs_cases hD with ⟨_, hall, _⟩ | ⟨hch, _, _⟩
    · rw [List.all_eq_true] at hall
      have := hall c hcm
      simp [charOK] at hbad
      rw [hbad.1] at this
      exact Bool.false_ne_true this
    · exact absurd hbad (by simp [hch c hcm])
  · rcases fpInputs_cases hD with ⟨_, hall, _⟩ | ⟨_, _, hwg⟩
    · have hdig := List.all_eq_true.mp hall c hcm
      rw [sep_not_digit hcsep] at hdig
      exact Bool.false_ne_true hdig
    · exact hng hwg
  · rw [fpInputs_digits hD, hdz] at hDo
    rw [cardUnfiltered_nil_leading_zero hrne] at hDo
    simp at hDo
  · rw [fpInputs_digits hD] at hDo
    rw [cardUnfiltered_nil_long hlong] at hDo
    simp at hDo

end ElTN
namespace ElTN

theorem branch2At_nil_digits {k : Nat} {s : Str} (h : s.all Char.isDigit = true) :
    branch2At k s = [] := by
  unfold branch2At
  by_cases hc : (s.take k).length = k ∧ (s.take k).all Char.isDigit ∧
      (s.take k).any (fun c => c ≠ '0')
  · rw [if_pos hc]
    rcases hsplit : s.drop k with _ | ⟨d, r⟩
    · rfl
    · simp only
      have hdm : d ∈ s := List.drop_subset k s (by rw [hsplit]; simp)
      have hdig := List.all_eq_true.mp h d hdm
      rw [digit_not_sep hdig]
      simp
  · rw [if_neg hc]

theorem branch2_nil_digits {s : Str} (h : s.all Char.isDigit = true) :
    branch2 s = [] := by
  unfold branch2
  rw [branch2At_nil_digits h, branch2At_nil_digits h, branch2At_nil_digits h]
  rfl

theorem fpInputs_digits_id {s : Str} (hne : s ≠ []) (h : s.all Char.isDigit = true) :
    fpInputs s = [s] := by
  unfold fpInputs
  rw [if_pos ⟨hne, h⟩, branch2_nil_digits h]
  rfl

theorem tailGroups_tailJoin (sep : Char) (hsep : isSep sep = true) :
    ∀ gs : List Str, gs ≠ [] →
      (∀ g ∈ gs, g.length = 3 ∧ ∀ c ∈ g, c.isDigit = true) →
      tailGroups (tailJoin sep gs) = [gs.flatten] := by
  intro gs
  induction gs with
  | nil => intro h; exact absurd rfl h
  | cons g rest ih =>
    intro _ hgs
    obtain ⟨hg3, hgd⟩ := hgs g (by simp)
    rcases g with _ | ⟨a, _ | ⟨b, _ | ⟨c, _ | _⟩⟩⟩ <;> simp at hg3
    have hda : a.isDigit = true := hgd a (by simp)
    have hdb : b.isDigit = true := hgd b (by simp)
    have hdc : c.isDigit = true := hgd c (by simp)
    have hall : [a, b, c].all Char.isDigit = true := by simp [hda, hdb, hdc]
    cases rest with
    | nil =>
      simp only [tailJoin, tailGroups, if_pos hall]
      simp
    | cons g' rest' =>
      have ihr := ih (by simp) (fun g hg => hgs g (List.mem_cons_of_mem _ hg))
      have hj : tailJoin sep ([a, b, c] :: g' :: rest') =
          a :: b :: c :: sep :: tailJoin sep (g' :: rest') := by
        simp [tailJoin]
      rw [hj]
      simp only [tailGroups, hall, hsep, and_self, if_pos]
      rw [ihr]
      simp

end ElTN
namespace ElTN

theorem flatten_map_sep {sep : Char} : ∀ (gs : List Str), gs ≠ [] →
    (gs.map (fun g => sep :: g)).flatten = sep :: tailJoin sep gs := by
  intro gs
  induction gs with
  | nil => intro h; exact absurd rfl h
  | cons g rest ih =>
    intro _
    cases rest with
    | nil => simp [tailJoin]
    | cons g' rest' =>
      rw [List.map_cons, List.flatten_cons, ih (by simp)]
      simp [tailJoin]

theorem fpInputs_grouped {sep : Char} {g0 : Str} {gs : List Str}
    (hsep : isSep sep = true)
    (h0d : ∀ c ∈ g0, c.isDigit = true)
    (h0len1 : 1 ≤ g0.length) (h0len3 : g0.length ≤ 3)
    (h0nz : ∃ c ∈ g0, c ≠ '0')
    (hgs : gs ≠ []) (hgs3 : ∀ g ∈ gs, g.length = 3 ∧ ∀ c ∈ g, c.isDigit = true) :
    fpInputs (g0 ++ sep :: tailJoin sep gs) = [g0 ++ gs.flatten] := by
  have htg := tailGroups_tailJoin sep hsep gs hgs hgs3
  have hsd := sep_not_digit hsep
  have hb1 : ((g0 ++ sep :: tailJoin sep gs).all Char.isDigit) = false := by
    simp [List.all_append, hsd]
  rcases g0 with _ | ⟨x, _ | ⟨y, _ | ⟨z, _ | _⟩⟩⟩
  · simp at h0len1
  case cons.nil =>
    have hx : x.isDigit = true := h0d x (by simp)
    have hxz : x ≠ '0' := by
      obtain ⟨c, hcm, hne⟩ := h0nz
      simpa using (List.mem_singleton.mp hcm) ▸ hne
    unfold fpInputs
    rw [if_neg (by rintro ⟨-, hall⟩; rw [hb1] at hall; exact Bool.false_ne_true hall)]
    unfold branch2
    have hAt1 : branch2At 1 ([x] ++ sep :: tailJoin sep gs) = [[x] ++ gs.flatten] := by
      show (if ([x].length = 1 ∧ [x].all Char.isDigit ∧ [x].any (fun c => c ≠ '0')) then
          (if isSep sep = true then
            (tailGroups (tailJoin sep gs)).map (fun t => [x] ++ t) else [])
          else []) = [[x] ++ gs.flatten]
      rw [if_pos (by simp [hx, hxz]), if_pos hsep, htg]
      rfl
    have hAt2 : branch2At 2 ([x] ++ sep :: tailJoin sep gs) = [] := by
      show (if (([x, sep] ++ (tailJoin sep gs).take 0).length = 2 ∧
            ([x, sep] ++ (tailJoin sep gs).take 0).all Char.isDigit ∧
            ([x, sep] ++ (tailJoin sep gs).take 0).any (fun c => c ≠ '0')) then
          (match (tailJoin sep gs).drop 0 with
            | d :: r => if isSep d = true then
                (tailGroups r).map (fun t => ([x, sep] ++ (tailJoin sep gs).take 0) ++ t)
              else []
            | [] => []) else []) = []
      rw [if_neg]
      rintro ⟨-, hall, -⟩
      have := List.all_eq_true.mp hall sep (by simp)
      rw [hsd] at this
      exact Bool.false_ne_true this
    have hAt3 : branch2At 3 ([x] ++ sep :: tailJoin sep gs) = [] := by
      show (if (([x, sep] ++ (tailJoin sep gs).take 1).length = 3 ∧
            ([x, sep] ++ (tailJoin sep gs).take 1).all Char.isDigit ∧
            ([x, sep] ++ (tailJoin sep gs).take 1).any (fun c => c ≠ '0')) then
          (match (tailJoin sep gs).drop 1 with
            | d :: r => if isSep d = true then
                (tailGroups r).map (fun t => ([x, sep] ++ (tailJoin sep gs).take 1) ++ t)
              else []
            | [] => []) else []) = []
      rw [if_neg]
      rintro ⟨-, hall, -⟩
      have := List.all_eq_true.mp hall sep (by simp)
      rw [hsd] at this
      exact Bool.false_ne_true this
    rw [hAt1, hAt2, hAt3]
    rfl
  case cons.cons.nil =>
    have hx : x.isDigit = true := h0d x (by simp)
    have hy : y.isDigit = true := h0d y (by simp)
    unfold fpInputs
    rw [if_neg (by rintro ⟨-, hall⟩; rw [hb1] at hall; exact Bool.false_ne_true hall)]
    unfold branch2
    have hAt1 : branch2At 1 ([x, y] ++ sep :: tailJoin sep gs) = [] := by
      show (if ([x].length = 1 ∧ [x].all Char.isDigit ∧ [x].any (fun c => c ≠ '0')) then
          (if isSep y = true then
            (tailGroups (sep :: tailJoin sep gs)).map (fun t => [x] ++ t) else [])
          else []) = []
      by_cases hc : ([x].length = 1 ∧ [x].all Char.isDigit ∧ [x].any (fun c => c ≠ '0'))
      · rw [if_pos hc, digit_not_sep hy]
        simp
      · rw [if_neg hc]
    have hAt2 : branch2At 2 ([x, y] ++ sep :: tailJoin sep gs) = [[x, y] ++ gs.flatten] := by
      show (if ([x, y].length = 2 ∧ [x, y].all Char.isDigit ∧ [x, y].any (fun c => c ≠ '0')) then
          (if isSep sep = true then
            (tailGroups (tailJoin sep gs)).map (fun t => [x, y] ++ t) else [])
          else []) = [[x, y] ++ gs.flatten]
      rw [if_pos ⟨rfl, by simp [hx, hy], by simpa using h0nz⟩, if_pos hsep, htg]
      rfl
    have hAt3 : branch2At 3 ([x, y] ++ sep :: tailJoin sep gs) = [] := by
      show (if (([x, y, sep] ++ (tailJoin sep gs).take 0).length = 3 ∧
            ([x, y, sep] ++ (tailJoin sep gs).take 0).all Char.isDigit ∧
            ([x, y, sep] ++ (tailJoin sep gs).take 0).any (fun c => c ≠ '0')) then
          (match (tailJoin sep gs).drop 0 with
            | d :: r => if isSep d = true then
                (tailGroups r).map (fun t => ([x, y, sep] ++ (tailJoin sep gs).take 0) ++ t)
              else []
            | [] => []) else []) = []
      rw [if_neg]
      rintro ⟨-, hall, -⟩
      have := List.all_eq_true.mp hall sep (by simp)
      rw [hsd] at this
      exact Bool.false_ne_true this
    rw [hAt1, hAt2, hAt3]
    rfl
  case cons.cons.cons.nil =>
    have hx : x.isDigit = true := h0d x (by simp)
    have hy : y.isDigit = true := h0d y (by simp)
    have hz : z.isDigit = true := h0d z (by simp)
    unfold fpInputs
    rw [if_neg (by rintro ⟨-, hall⟩; rw [hb1] at hall; exact Bool.false_ne_true hall)]
    unfold branch2
    have hAt1 : branch2At 1 ([x, y, z] ++ sep :: tailJoin sep gs) = [] := by
      show (if ([x].length = 1 ∧ [x].all Char.isDigit ∧ [x].any (fun c => c ≠ '0')) then
          (if isSep y = true then
            (tailGroups (z :: sep :: tailJoin sep gs)).map (fun t => [x] ++ t) else [])
          else []) = []
      by_cases hc : ([x].length = 1 ∧ [x].all Char.isDigit ∧ [x].any (fun c => c ≠ '0'))
      · rw [if_pos hc, digit_not_sep hy]
        simp
      · rw [if_neg hc]
    have hAt2 : branch2At 2 ([x, y, z] ++ sep :: tailJoin sep gs) = [] := by
      show (if ([x, y].length = 2 ∧ [x, y].all Char.isDigit ∧ [x, y].any (fun c => c ≠ '0')) then
          (if isSep z = true then
            (tailGroups (sep :: tailJoin sep gs)).map (fun t => [x, y] ++ t) else [])
          else []) = []
      by_cases hc : ([x, y].length = 2 ∧ [x, y].all Char.isDigit ∧ [x, y].any (fun c => c ≠ '0'))
      · rw [if_pos hc, digit_not_sep hz]
        simp
      · rw [if_neg hc]
    have hAt3 : branch2At 3 ([x, y, z] ++ sep :: tailJoin sep gs) = [[x, y, z] ++ gs.flatten] := by
      show (if ([x, y, z].length = 3 ∧ [x, y, z].all Char.isDigit ∧
            [x, y, z].any (fun c => c ≠ '0')) then
          (if isSep sep = true then
            (tailGroups (tailJoin sep gs)).map (fun t => [x, y, z] ++ t) else [])
          else []) = [[x, y, z] ++ gs.flatten]
      rw [if_pos ⟨rfl, by simp [hx, hy, hz], by simpa using h0nz⟩, if_pos hsep, htg]
      rfl
    rw [hAt1, hAt2, hAt3]
    rfl
  · simp at h0len3

end ElTN
namespace ElTN

/-- Claim C4: for every digit string, inserting a grouping separator
(period or space) at every 3-digit boundary from the right — leftmost
group of 1 to 3 digits, not all zeros — yields an input the cardinal
grammar maps to exactly the same output word sequences as the plain
digit string. -/
theorem claim_C4_grouping_equivalent (sep : Char) (g0 : Str) (gs : List Str)
    (hsep : isSep sep = true)
    (h0d : ∀ c ∈ g0, c.isDigit = true)
    (h0len1 : 1 ≤ g0.length) (h0len3 : g0.length ≤ 3)
    (h0nz : ∃ c ∈ g0, c ≠ '0')
    (hgs3 : ∀ g ∈ gs, g.length = 3 ∧ ∀ c ∈ g, c.isDigit = true) :
    cardGraph (g0 ++ (gs.map (fun g => sep :: g)).flatten) =
      cardGraph (g0 ++ gs.flatten) := by
  cases gs with
  | nil => simp
  | cons g rest =>
    have hne : (g :: rest) ≠ [] := by simp
    have hdig : (g0 ++ (g :: rest).flatten).all Char.isDigit = true := by
      rw [List.all_eq_true]
      intro c hcm
      rcases List.mem_append.mp hcm with hcm | hcm
      · simpa using h0d c hcm
      · obtain ⟨gg, hgg, hcg⟩ := List.mem_flatten.mp hcm
        simpa using (hgs3 gg hgg).2 c hcg
    have hnil : (g0 ++ (g :: rest).flatten) ≠ [] := by
      intro h
      rw [List.append_eq_nil] at h
      rw [h.1] at h0len1
      simp at h0len1
    unfold cardGraph
    rw [flatten_map_sep _ hne,
      fpInputs_grouped hsep h0d h0len1 h0len3 h0nz hne hgs3,
      fpInputs_digits_id hnil hdig]

end ElTN
namespace ElTN

theorem digitToWord_finChar : ∀ d : Fin 10, digitToWordR [finDigitChar d] = [wordOf d] := by
  decide

theorem phoneItem_finChar : ∀ d : Fin 10,
    phoneItemR [finDigitChar d] = [wordOf d ++ [' ']] := by
  decide

theorem wordOf_facts : ∀ d : Fin 10, wordOf d ≠ [] ∧ ∀ c ∈ wordOf d, c ≠ ' ' := by
  decide

theorem starJoin : ∀ (ds : List (Fin 10)) (n : Nat), ds.length ≤ n →
    joinSp ds ∈ starR phoneItemR n (ds.map finDigitChar) := by
  intro ds
  induction ds with
  | nil =>
    intro n _
    cases n <;> simp [starR, joinSp]
  | cons d rest ih =>
    intro n hn
    cases n with
    | zero => simp at hn
    | succ m =>
      have hmem : ([finDigitChar d], rest.map finDigitChar) ∈
          (splits ((d :: rest).map finDigitChar)).filter (fun p => p.1 ≠ []) := by
        rw [List.mem_filter]
        exact ⟨(mem_splits _ _ _).mpr (by simp), by simp⟩
      show joinSp (d :: rest) ∈ _
      unfold starR
      rw [List.mem_append, List.mem_flatMap]
      right
      refine ⟨([finDigitChar d], rest.map finDigitChar), hmem, ?_⟩
      rw [List.mem_flatMap]
      refine ⟨wordOf d ++ [' '], by rw [phoneItem_finChar]; simp, ?_⟩
      rw [List.mem_map]
      refine ⟨joinSp rest, ih m (by simpa using hn), ?_⟩
      simp [joinSp]

theorem phoneDigits_mem (ds : List (Fin 10)) (d : Fin 10) :
    joinSp ds ++ wordOf d ∈ phoneDigitsR ((ds.map finDigitChar) ++ [finDigitChar d]) := by
  unfold phoneDigitsR
  apply mem_seqR.mpr
  refine ⟨ds.map finDigitChar, [finDigitChar d], joinSp ds, wordOf d, rfl, ?_, ?_, rfl⟩
  · apply starJoin
    simp
  · rw [digitToWord_finChar]
    simp

theorem joinWords_concat : ∀ (ds : List (Fin 10)) (d : Fin 10),
    joinWords (ds ++ [d]) = joinSp ds ++ wordOf d := by
  intro ds
  induction ds with
  | nil => intro d; simp [joinWords, joinSp]
  | cons e rest ih =>
    intro d
    cases rest with
    | nil => simp [joinWords, joinSp]
    | cons e' rest' =>
      have h1 : joinWords ((e :: e' :: rest') ++ [d]) =
          wordOf e ++ ' ' :: joinWords ((e' :: rest') ++ [d]) := by
        simp [joinWords]
      rw [h1, ih d]
      simp [joinSp]

theorem nds_of_all_nonspace : ∀ (u : Str), (∀ c ∈ u, c ≠ ' ') → NoDoubleSpace u := by
  intro u
  induction u with
  | nil => intro _; exact List.chain'_nil
  | cons c rest ih =>
    intro h
    cases rest with
    | nil => exact List.chain'_singleton c
    | cons d rest' =>
      rw [NoDoubleSpace, List.chain'_cons]
      exact ⟨fun hc => (h c (by simp)) hc.1,
        ih (fun x hx => h x (List.mem_cons_of_mem _ hx))⟩

theorem joinWords_clean : ∀ (ds : List (Fin 10)), ds ≠ [] →
    NoDoubleSpace (joinWords ds) ∧ ∃ c t, joinWords ds = c :: t ∧ c ≠ ' ' := by
  intro ds
  induction ds with
  | nil => intro h; exact absurd rfl h
  | cons d rest ih =>
    intro _
    obtain ⟨hne, hnsp⟩ := wordOf_facts d
    have hhead : ∃ c t, joinWords (d :: rest) = c :: t ∧ c ≠ ' ' := by
      rcases hw : wordOf d with _ | ⟨c, t⟩
      · exact absurd hw hne
      · cases rest with
        | nil => exact ⟨c, t, by simp [joinWords, hw], hnsp c (by rw [hw]; simp)⟩
        | cons e rest' =>
          refine ⟨c, t ++ ' ' :: joinWords (e :: rest'), ?_, hnsp c (by rw [hw]; simp)⟩
          simp [joinWords, hw]
    refine ⟨?_, hhead⟩
    cases rest with
    | nil =>
      have : joinWords [d] = wordOf d := by simp [joinWords]
      rw [this]
      exact nds_of_all_nonspace _ hnsp
    | cons e rest' =>
      obtain ⟨ihnds, c', t', ihhead, ihc⟩ := ih (by simp)
      have hj : joinWords (d :: e :: rest') = wordOf d ++ ' ' :: joinWords (e :: rest') := by
        simp [joinWords]
      rw [hj, NoDoubleSpace, List.chain'_append]
      refine ⟨nds_of_all_nonspace _ hnsp, ?_, ?_⟩
      · rw [List.chain'_cons']
        refine ⟨?_, ihnds⟩
        intro y hy
        rw [ihhead] at hy
        simp at hy
        subst hy
        exact fun hc => ihc hc.2
      · intro x hx y hy
        simp at hy
        subst hy
        obtain ⟨hxe, hxl⟩ := List.mem_getLast?_eq_getLast hx
        have hxm : x ∈ wordOf d := by rw [hxl]; exact List.getLast_mem hxe
        exact fun hc => (hnsp x hxm) hc.1

end ElTN
namespace ElTN

theorem collapse_eq_self : ∀ {s : Str}, NoDoubleSpace s → collapseSpaces s = s := by
  intro s
  induction s using collapseSpaces.induct with
  | case1 => intro _; rfl
  | case2 c => intro _; rfl
  | case3 c d tl hcond ih =>
    intro h
    rw [NoDoubleSpace, List.chain'_cons] at h
    have hc := Bool.and_eq_true_iff.mp hcond
    exact absurd ⟨of_decide_eq_true hc.1, of_decide_eq_true hc.2⟩ h.1
  | case4 c d tl hcond ih =>
    intro h
    rw [NoDoubleSpace, List.chain'_cons] at h
    show (if (decide (c = ' ') && decide (d = ' ')) = true then collapseSpaces (d :: tl)
      else c :: collapseSpaces (d :: tl)) = c :: d :: tl
    rw [if_neg hcond]
    rw [show collapseSpaces (d :: tl) = d :: tl from ih h.2]

theorem telephone_accepts_digits : ∀ (ds : List (Fin 10)), ds ≠ [] →
    ("number_part: \"".data ++ joinWords ds ++ "\"".data) ∈
      graphNumberOnly (ds.map finDigitChar) := by
  intro ds hne
  obtain ⟨init, d, rfl⟩ : ∃ init d, ds = init ++ [d] := by
    rcases List.eq_nil_or_concat ds with h | ⟨init, d, h⟩
    · exact absurd h hne
    · exact ⟨init, d, by simpa [List.concat_eq_append] using h⟩
  unfold graphNumberOnly
  apply mem_seqR.mpr
  refine ⟨[], (init ++ [d]).map finDigitChar, "number_part: \"".data,
    joinWords (init ++ [d]) ++ "\"".data, rfl, by simp [mem_insertR], ?_, by simp⟩
  apply mem_seqR.mpr
  refine ⟨(init ++ [d]).map finDigitChar, [], joinWords (init ++ [d]), "\"".data,
    by simp, ?_, by simp [mem_insertR], rfl⟩
  rw [List.mem_map]
  refine ⟨joinSp init ++ wordOf d, ?_, ?_⟩
  · rw [List.map_append]
    exact phoneDigits_mem init d
  · rw [← joinWords_concat]
    exact collapse_eq_self (joinWords_clean _ (by simp)).1

end ElTN

namespace ElTN

/-- Membership chains: the renderings of small cardinal inputs, built by
exhibiting the accepting path through the scale levels (the first union
branch deletes the "000" group at each level). -/
theorem trillions_one_mem :
    "ένα".data ∈ graphTrillions "000000000000001".data := by
  have htc : "ένα".data ∈ graphThousandsComponent "000001".data := by
    apply mem_unionR.mpr
    left
    exact mem_seqR_intro "000".data "001".data (show ([] : Str) ∈ deleteR "000".data "000".data from by decide)
      (show "ένα".data ∈ hundredsCompNZ "001".data from by decide)
  have hm : "ένα".data ∈ graphMillions "000000001".data := by
    apply mem_unionR.mpr
    left
    exact mem_seqR_intro "000".data "000001".data (show ([] : Str) ∈ deleteR "000".data "000".data from by decide) htc
  have hb : "ένα".data ∈ graphBillions "000000000001".data := by
    apply mem_unionR.mpr
    left
    exact mem_seqR_intro "000".data "000000001".data (show ([] : Str) ∈ deleteR "000".data "000".data from by decide) hm
  apply mem_unionR.mpr
  left
  exact mem_seqR_intro "000".data "000000000001".data (show ([] : Str) ∈ deleteR "000".data "000".data from by decide) hb

/-- The accepting path for "50" (padded): the units group "050" goes
through `pynutil.delete("0") + graph_tens`. -/
theorem trillions_fifty_mem :
    "πενήντα".data ∈ graphTrillions "000000000000050".data := by
  have htc : "πενήντα".data ∈ graphThousandsComponent "000050".data := by
    apply mem_unionR.mpr
    left
    exact mem_seqR_intro "000".data "050".data (show ([] : Str) ∈ deleteR "000".data "000".data from by decide)
      (show "πενήντα".data ∈ hundredsCompNZ "050".data from by decide)
  have hm : "πενήντα".data ∈ graphMillions "000000050".data := by
    apply mem_unionR.mpr
    left
    exact mem_seqR_intro "000".data "000050".data (show ([] : Str) ∈ deleteR "000".data "000".data from by decide) htc
  have hb : "πενήντα".data ∈ graphBillions "000000000050".data := by
    apply mem_unionR.mpr
    left
    exact mem_seqR_intro "000".data "000000050".data (show ([] : Str) ∈ deleteR "000".data "000".data from by decide) hm
  apply mem_unionR.mpr
  left
  exact mem_seqR_intro "000".data "000000000050".data (show ([] : Str) ∈ deleteR "000".data "000".data from by decide) hb

theorem cardGraph_one_mem : "ένα".data ∈ cardGraph "1".data := by
  apply List.mem_flatMap.mpr
  refine ⟨"1".data, by decide, ?_⟩
  show "ένα".data ∈
    ((if ('1' ≠ '0' ∧ (['1'] : Str).all Char.isDigit) then
        match padTo15 ['1'] with
        | some t => (graphTrillions t).map cleanSpaces
        | none => []
      else []) ++ (if (['1'] : Str) = "0".data then ["μηδέν".data] else []))
  rw [if_pos (by decide),
    show padTo15 ['1'] = some "000000000000001".data from by decide]
  apply List.mem_append.mpr
  left
  show "ένα".data ∈ (graphTrillions "000000000000001".data).map cleanSpaces
  apply List.mem_map.mpr
  exact ⟨"ένα".data, trillions_one_mem, by decide⟩

theorem cardGraph_fifty_mem : "πενήντα".data ∈ cardGraph "50".data := by
  apply List.mem_flatMap.mpr
  refine ⟨"50".data, by decide, ?_⟩
  show "πενήντα".data ∈
    ((if ('5' ≠ '0' ∧ (['5', '0'] : Str).all Char.isDigit) then
        match padTo15 ['5', '0'] with
        | some t => (graphTrillions t).map cleanSpaces
        | none => []
      else []) ++ (if (['5', '0'] : Str) = "0".data then ["μηδέν".data] else []))
  rw [if_pos (by decide),
    show padTo15 ['5', '0'] = some "000000000000050".data from by decide]
  apply List.mem_append.mpr
  left
  show "πενήντα".data ∈ (graphTrillions "000000000000050".data).map cleanSpaces
  apply List.mem_map.mpr
  exact ⟨"πενήντα".data, trillions_fifty_mem, by decide⟩

theorem integerGraph_one_mem : "ένα".data ∈ integerGraph "1".data := by
  unfold integerGraph
  rw [if_pos (by decide)]
  exact cardGraph_one_mem

theorem fractionalGraph_fifty_mem : "πενήντα".data ∈ fractionalGraph "50".data := by
  unfold fractionalGraph
  rw [if_pos (by decide)]
  show "πενήντα".data ∈ cardGraph "50".data
  exact cardGraph_fifty_mem

theorem flatMap_nil_of {α β : Type} {l : List α} {f : α → List β}
    (h : ∀ x ∈ l, f x = []) : l.flatMap f = [] := by
  induction l with
  | nil => rfl
  | cons x xs ih =>
    rw [List.flatMap_cons, h x (by simp), ih (fun y hy => h y (List.mem_cons_of_mem _ hy))]
    rfl

theorem seqR_crossR_eq (a b s : Str) (S : Rel) :
    seqR (crossR a b) S (a ++ s) = (S s).map (fun o => b ++ o) := by
  induction a generalizing s with
  | nil =>
    show seqR (crossR [] b) S s = _
    cases s with
    | nil =>
      show (splits []).flatMap _ = _
      simp [splits, crossR, List.flatMap_cons]
    | cons c cs =>
      show (splits (c :: cs)).flatMap _ = _
      rw [show splits (c :: cs) = ([], c :: cs) :: (splits cs).map (fun p => (c :: p.1, p.2)) from rfl]
      rw [List.flatMap_cons]
      have h1 : (crossR [] b []).flatMap (fun o1 => (S (c :: cs)).map (fun o2 => o1 ++ o2)) =
          (S (c :: cs)).map (fun o => b ++ o) := by
        show ([b]).flatMap _ = _
        rw [List.flatMap_cons]
        simp
      have h2 : ((splits cs).map (fun p => (c :: p.1, p.2))).flatMap
          (fun p => (crossR [] b p.1).flatMap (fun o1 => (S p.2).map (fun o2 => o1 ++ o2))) = [] := by
        apply flatMap_nil_of
        intro p hp
        obtain ⟨q, _, rfl⟩ := List.mem_map.mp hp
        show (crossR [] b (c :: q.1)).flatMap _ = []
        rw [show crossR [] b (c :: q.1) = [] from by simp [crossR]]
        rfl
      rw [h1, h2, List.append_nil]
  | cons c a' ih =>
    show (splits (c :: (a' ++ s))).flatMap _ = _
    rw [show splits (c :: (a' ++ s)) =
        ([], c :: (a' ++ s)) :: (splits (a' ++ s)).map (fun p => (c :: p.1, p.2)) from rfl]
    rw [List.flatMap_cons]
    have h1 : (crossR (c :: a') b []).flatMap
        (fun o1 => (S (c :: (a' ++ s))).map (fun o2 => o1 ++ o2)) = [] := by
      rw [show crossR (c :: a') b [] = [] from by simp [crossR]]
      rfl
    have hfg : (fun p : Str × Str => (crossR (c :: a') b (c :: p.1)).flatMap
          (fun o1 => (S p.2).map (fun o2 => o1 ++ o2))) =
        (fun p : Str × Str => (crossR a' b p.1).flatMap
          (fun o1 => (S p.2).map (fun o2 => o1 ++ o2))) := by
      funext p
      have hc : crossR (c :: a') b (c :: p.1) = crossR a' b p.1 := by
        by_cases h : p.1 = a'
        · rw [show crossR (c :: a') b (c :: p.1) = [b] from by rw [crossR, if_pos (by rw [h])],
            show crossR a' b p.1 = [b] from by rw [crossR, if_pos h]]
        · rw [show crossR (c :: a') b (c :: p.1) = [] from by
              rw [crossR, if_neg (by simp [h])],
            show crossR a' b p.1 = [] from by rw [crossR, if_neg h]]
      rw [hc]
    have h2 : ((splits (a' ++ s)).map (fun p => (c :: p.1, p.2))).flatMap
        (fun p => (crossR (c :: a') b p.1).flatMap (fun o1 => (S p.2).map (fun o2 => o1 ++ o2))) =
        (splits (a' ++ s)).flatMap
          (fun p => (crossR a' b p.1).flatMap (fun o1 => (S p.2).map (fun o2 => o1 ++ o2))) := by
      rw [List.flatMap_map]
      exact congrArg (splits (a' ++ s)).flatMap hfg
    rw [h1, h2, List.nil_append]
    exact ih s

theorem seqR_deleteR_eq (a s : Str) (S : Rel) : seqR (deleteR a) S (a ++ s) = S s := by
  rw [show deleteR a = crossR a [] from rfl, seqR_crossR_eq]
  simp

theorem seqR_nil_of_inits {R S : Rel} {s : Str}
    (h : ∀ t ∈ s.inits, R t = []) : seqR R S s = [] :=
  seqR_nil_of_left (fun t ht => h t ((List.mem_inits _ _).mpr ht))

theorem seqR_seqR_nil_of_inits {M REST R2 : Rel} {s : Str}
    (h : ∀ u ∈ s.inits, M u = []) : seqR (seqR M REST) R2 s = [] :=
  seqR_nil_of_left (fun t ht => seqR_nil_of_left (fun u hu =>
    h u ((List.mem_inits _ _).mpr (hu.trans ht))))

theorem levelU_eq {NEXT R2 ONEr PREFr : Rel} (d r : Str)
    (h2 : seqR ONEr R2 (d ++ r) = [])
    (h3 : seqR PREFr R2 (d ++ r) = []) :
    unionR (seqR (deleteR d) NEXT) (unionR (seqR ONEr R2) (seqR PREFr R2)) (d ++ r)
      = NEXT r := by
  show seqR (deleteR d) NEXT (d ++ r) ++ (seqR ONEr R2 (d ++ r) ++ seqR PREFr R2 (d ++ r)) = NEXT r
  rw [seqR_deleteR_eq, h2, h3]
  simp

theorem levelU_one_eq {NEXT R2 PREFr : Rel} (d onek w r : Str)
    (h1 : seqR (deleteR d) NEXT (onek ++ r) = [])
    (h3 : seqR PREFr R2 (onek ++ r) = []) :
    unionR (seqR (deleteR d) NEXT) (unionR (seqR (crossR onek w) R2) (seqR PREFr R2)) (onek ++ r)
      = (R2 r).map (fun o => w ++ o) := by
  show seqR (deleteR d) NEXT (onek ++ r) ++
    (seqR (crossR onek w) R2 (onek ++ r) ++ seqR PREFr R2 (onek ++ r)) = _
  rw [h1, seqR_crossR_eq, h3]
  simp

end ElTN
namespace ElTN

theorem cardGraph_eval (c : Char) (cs p : Str)
    (hd : (c :: cs).all Char.isDigit = true) (hc : c ≠ '0')
    (hp : padTo15 (c :: cs) = some p) (hz : c :: cs ≠ "0".data) :
    cardGraph (c :: cs) = (graphTrillions p).map cleanSpaces := by
  unfold cardGraph
  rw [fpInputs_digits_id (List.cons_ne_nil c cs) hd]
  show cardUnfiltered (c :: cs) ++ [] = _
  rw [List.append_nil]
  show (if c ≠ '0' ∧ (c :: cs).all Char.isDigit then
      match padTo15 (c :: cs) with
      | some t => (graphTrillions t).map cleanSpaces
      | none => []
    else []) ++ (if c :: cs = "0".data then ["μηδέν".data] else []) = _
  rw [if_pos ⟨hc, hd⟩, hp, if_neg hz, List.append_nil]

theorem tc_6zeros_nil : graphThousandsComponent "000000".data = [] := by decide

theorem tc_1000_eq : graphThousandsComponent "001000".data = ["χίλια ".data] := by decide

theorem tc_2000_eq : graphThousandsComponent "002000".data = ["δύο χιλιάδες ".data] := by decide

theorem tc_101000_nil : graphThousandsComponent "101000".data = [] := by decide

theorem tc_123_nil : graphThousandsComponent "000123".data = [] := by decide

theorem trillions_123_nil : graphTrillions "000000000000123".data = [] := by
  calc graphTrillions "000000000000123".data
      = graphBillions "000000000123".data :=
        levelU_eq _ _ (seqR_nil_of_inits (by decide)) (seqR_seqR_nil_of_inits (by decide))
    _ = graphMillions "000000123".data :=
        levelU_eq _ _ (seqR_nil_of_inits (by decide)) (seqR_seqR_nil_of_inits (by decide))
    _ = graphThousandsComponent "000123".data :=
        levelU_eq _ _ (seqR_nil_of_inits (by decide)) (seqR_seqR_nil_of_inits (by decide))
    _ = [] := tc_123_nil

theorem trillions_1000_eq :
    graphTrillions "000000000001000".data = ["χίλια ".data] := by
  calc graphTrillions "000000000001000".data
      = graphBillions "000000001000".data :=
        levelU_eq _ _ (seqR_nil_of_inits (by decide)) (seqR_seqR_nil_of_inits (by decide))
    _ = graphMillions "000001000".data :=
        levelU_eq _ _ (seqR_nil_of_inits (by decide)) (seqR_seqR_nil_of_inits (by decide))
    _ = graphThousandsComponent "001000".data :=
        levelU_eq _ _ (seqR_nil_of_inits (by decide)) (seqR_seqR_nil_of_inits (by decide))
    _ = ["χίλια ".data] := tc_1000_eq

theorem trillions_2000_eq :
    graphTrillions "000000000002000".data = ["δύο χιλιάδες ".data] := by
  calc graphTrillions "000000000002000".data
      = graphBillions "000000002000".data :=
        levelU_eq _ _ (seqR_nil_of_inits (by decide)) (seqR_seqR_nil_of_inits (by decide))
    _ = graphMillions "000002000".data :=
        levelU_eq _ _ (seqR_nil_of_inits (by decide)) (seqR_seqR_nil_of_inits (by decide))
    _ = graphThousandsComponent "002000".data :=
        levelU_eq _ _ (seqR_nil_of_inits (by decide)) (seqR_seqR_nil_of_inits (by decide))
    _ = ["δύο χιλιάδες ".data] := tc_2000_eq

theorem trillions_101000_nil : graphTrillions "000000000101000".data = [] := by
  calc graphTrillions "000000000101000".data
      = graphBillions "000000101000".data :=
        levelU_eq _ _ (seqR_nil_of_inits (by decide)) (seqR_seqR_nil_of_inits (by decide))
    _ = graphMillions "000101000".data :=
        levelU_eq _ _ (seqR_nil_of_inits (by decide)) (seqR_seqR_nil_of_inits (by decide))
    _ = graphThousandsComponent "101000".data :=
        levelU_eq _ _ (seqR_nil_of_inits (by decide)) (seqR_seqR_nil_of_inits (by decide))
    _ = [] := tc_101000_nil

theorem millions_1e6_eq :
    graphMillions "001000000".data = ["ένα εκατομμύριο ".data] := by
  have r2 : seqR insertSpaceR (unionR graphThousandsComponent (deleteR "000000".data))
      "000000".data = [" ".data] := by
    show seqR (crossR [] " ".data) (unionR graphThousandsComponent (deleteR "000000".data))
      ([] ++ "000000".data) = [" ".data]
    rw [seqR_crossR_eq,
      show unionR graphThousandsComponent (deleteR "000000".data) "000000".data = [([] : Str)] from by
        show graphThousandsComponent "000000".data ++ deleteR "000000".data "000000".data = [[]]
        rw [tc_6zeros_nil]
        rfl]
    rfl
  calc graphMillions "001000000".data
      = (seqR insertSpaceR (unionR graphThousandsComponent (deleteR "000000".data))
          "000000".data).map (fun o => "ένα εκατομμύριο".data ++ o) :=
        levelU_one_eq _ _ _ _ (seqR_nil_of_inits (by decide)) (seqR_seqR_nil_of_inits (by decide))
    _ = ["ένα εκατομμύριο ".data] := by rw [r2]; rfl

theorem trillions_1e6_eq :
    graphTrillions "000000001000000".data = ["ένα εκατομμύριο ".data] := by
  calc graphTrillions "000000001000000".data
      = graphBillions "000001000000".data :=
        levelU_eq _ _ (seqR_nil_of_inits (by decide)) (seqR_seqR_nil_of_inits (by decide))
    _ = graphMillions "001000000".data :=
        levelU_eq _ _ (seqR_nil_of_inits (by decide)) (seqR_seqR_nil_of_inits (by decide))
    _ = ["ένα εκατομμύριο ".data] := millions_1e6_eq

theorem millions_9z_nil : graphMillions "000000000".data = [] := by
  calc graphMillions "000000000".data
      = graphThousandsComponent "000000".data :=
        levelU_eq _ _ (seqR_nil_of_inits (by decide)) (seqR_seqR_nil_of_inits (by decide))
    _ = [] := tc_6zeros_nil

theorem billions_1e9_eq :
    graphBillions "001000000000".data = ["ένα δισεκατομμύριο ".data] := by
  have r2 : seqR insertSpaceR (unionR graphMillions (deleteR "000000000".data))
      "000000000".data = [" ".data] := by
    show seqR (crossR [] " ".data) (unionR graphMillions (deleteR "000000000".data))
      ([] ++ "000000000".data) = [" ".data]
    rw [seqR_crossR_eq,
      show unionR graphMillions (deleteR "000000000".data) "000000000".data = [([] : Str)] from by
        show graphMillions "000000000".data ++ deleteR "000000000".data "000000000".data = [[]]
        rw [millions_9z_nil]
        rfl]
    rfl
  calc graphBillions "001000000000".data
      = (seqR insertSpaceR (unionR graphMillions (deleteR "000000000".data))
          "000000000".data).map (fun o => "ένα δισεκατομμύριο".data ++ o) :=
        levelU_one_eq _ _ _ _ (seqR_nil_of_inits (by decide)) (seqR_seqR_nil_of_inits (by decide))
    _ = ["ένα δισεκατομμύριο ".data] := by rw [r2]; rfl

theorem trillions_1e9_eq :
    graphTrillions "000001000000000".data = ["ένα δισεκατομμύριο ".data] := by
  calc graphTrillions "000001000000000".data
      = graphBillions "001000000000".data :=
        levelU_eq _ _ (seqR_nil_of_inits (by decide)) (seqR_seqR_nil_of_inits (by decide))
    _ = ["ένα δισεκατομμύριο ".data] := billions_1e9_eq

theorem billions_12z_nil : graphBillions "000000000000".data = [] := by
  calc graphBillions "000000000000".data
      = graphMillions "000000000".data :=
        levelU_eq _ _ (seqR_nil_of_inits (by decide)) (seqR_seqR_nil_of_inits (by decide))
    _ = [] := millions_9z_nil

theorem trillions_1e12_eq :
    graphTrillions "001000000000000".data = ["ένα τρισεκατομμύριο ".data] := by
  have r2 : seqR insertSpaceR (unionR graphBillions (deleteR "000000000000".data))
      "000000000000".data = [" ".data] := by
    show seqR (crossR [] " ".data) (unionR graphBillions (deleteR "000000000000".data))
      ([] ++ "000000000000".data) = [" ".data]
    rw [seqR_crossR_eq,
      show unionR graphBillions (deleteR "000000000000".data) "000000000000".data
          = [([] : Str)] from by
        show graphBillions "000000000000".data ++
          deleteR "000000000000".data "000000000000".data = [[]]
        rw [billions_12z_nil]
        rfl]
    rfl
  calc graphTrillions "001000000000000".data
      = (seqR insertSpaceR (unionR graphBillions (deleteR "000000000000".data))
          "000000000000".data).map (fun o => "ένα τρισεκατομμύριο".data ++ o) :=
        levelU_one_eq _ _ _ _ (seqR_nil_of_inits (by decide)) (seqR_seqR_nil_of_inits (by decide))
    _ = ["ένα τρισεκατομμύριο ".data] := by rw [r2]; rfl

/-- Claim C1 (failing-input evaluation): the digit string "123" — which the
class docstring of `CardinalFst` renders as "εκατόν είκοσι τρία" and whose
round-trip the spec asserts — produces no output at all in the cardinal
grammar: `graph_tens` concatenates the two-character decade inputs with a
digit, so no group whose tens and units digits are both non-zero parses. -/
theorem claim_C1_cardinal_123_no_match : cardGraph "123".data = [] := by
  show cardGraph ('1' :: "23".data) = []
  rw [cardGraph_eval '1' "23".data "000000000000123".data (by decide) (by decide)
    (by decide) (by decide), trillions_123_nil]
  rfl

/-- Claim C2: each non-zero power-of-ten scale boundary renders exactly to
the scale level's irregular exactly-one form, and the word for "one"
followed by the generic plural scale word is never produced. -/
theorem claim_C2_scale_boundaries :
    cardGraph "1000".data = ["χίλια".data] ∧
    cardGraph "1000000".data = ["ένα εκατομμύριο".data] ∧
    cardGraph "1000000000".data = ["ένα δισεκατομμύριο".data] ∧
    cardGraph "1000000000000".data = ["ένα τρισεκατομμύριο".data] ∧
    "ένα χιλιάδες".data ∉ cardGraph "1000".data := by
  have h1 : cardGraph "1000".data = ["χίλια".data] := by
    show cardGraph ('1' :: "000".data) = _
    rw [cardGraph_eval '1' "000".data "000000000001000".data (by decide) (by decide)
      (by decide) (by decide), trillions_1000_eq]
    decide
  refine ⟨h1, ?_, ?_, ?_, ?_⟩
  · show cardGraph ('1' :: "000000".data) = _
    rw [cardGraph_eval '1' "000000".data "000000001000000".data (by decide) (by decide)
      (by decide) (by decide), trillions_1e6_eq]
    decide
  · show cardGraph ('1' :: "000000000".data) = _
    rw [cardGraph_eval '1' "000000000".data "000001000000000".data (by decide) (by decide)
      (by decide) (by decide), trillions_1e9_eq]
    decide
  · show cardGraph ('1' :: "000000000000".data) = _
    rw [cardGraph_eval '1' "000000000000".data "001000000000000".data (by decide) (by decide)
      (by decide) (by decide), trillions_1e12_eq]
    decide
  · rw [h1]
    decide

/-- Claim C3 (tie-break rule and failing input): a thousands group that
renders to a word other than "ένα" takes the plural scale word ("2000" →
"δύο χιλιάδες", never the irregular form), but the group "101" — which the
claim says renders "εκατόν ένα" and takes the plural scale word — has no
parse at all in the hundreds grammar, so "101000" produces no output. -/
theorem claim_C3_non_one_groups :
    cardGraph "2000".data = ["δύο χιλιάδες".data] ∧
    cardGraph "101000".data = [] := by
  constructor
  · show cardGraph ('2' :: "000".data) = _
    rw [cardGraph_eval '2' "000".data "000000000002000".data (by decide) (by decide)
      (by decide) (by decide), trillions_2000_eq]
    decide
  · show cardGraph ('1' :: "01000".data) = []
    rw [cardGraph_eval '1' "01000".data "000000000101000".data (by decide) (by decide)
      (by decide) (by decide), trillions_101000_nil]
    rfl

/-- Witness for claim C4 at the concrete grouping "1.000" of "1000". -/
theorem claim_C4_grouping_equivalent_witness :
    cardGraph "1.000".data = cardGraph "1000".data :=
  claim_C4_grouping_equivalent '.' "1".data [['0', '0', '0']] (by decide)
    (by decide) (by decide) (by decide) (by decide) (by decide)

/-- Witness for claim C5 at the concrete token "12a". -/
theorem claim_C5_malformed_no_match_witness :
    (∃ c ∈ "12a".data, charOK c = false) ∧ cardGraph "12a".data = [] :=
  ⟨by decide, claim_C5_malformed_no_match "12a".data (Or.inl (by decide))⟩

/-- Claim C6 (failing inputs): the ordinal tagger rejects the decade
"20ος" and the irregular top case "100ος" — `number` accepts only one or
two digits, the decades graph deletes a leading rather than a trailing
zero (it accepts "02ος" instead), and the "100" entry of `ordinal_roots`
is never composed — while 1–19 and the compound 21–99 work. -/
theorem claim_C6_ordinal_range :
    ordinalTagGraph "20ος".data = [] ∧
    ordinalTagGraph "100ος".data = [] ∧
    ordinalTagGraph "02ος".data =
      ["integer: \"εικοστος\" morphosyntactic_features: \"masc\"".data] ∧
    ordinalTagGraph "1ος".data =
      ["integer: \"πρώτος\" morphosyntactic_features: \"masc\"".data] ∧
    ordinalTagGraph "21ος".data =
      ["integer: \"εικοστος πρώτος\" morphosyntactic_features: \"masc\"".data] ∧
    ("100".data, "εκατοστ".data) ∈ ordinalRoots :=
  ⟨by decide, by decide, by decide, by decide, by decide, by decide⟩

/-- Claim C7 (failing input): the tagger produces the amount-first
with-cents field sequence for "1,50€", but the verbalizer union has no
pattern for that field order (`graph_with_cents_v2` is defined and then
omitted at line 126), so the sequence does not verbalize at all; and the
currency-first with-cents sequence verbalizes with the currency word
first, not in the canonical amount-first spoken order of the module
docstring. -/
theorem claim_C7_money_round_trip :
    ("integer_part: \"ένα\" fractional_part: \"πενήντα\" currency: \"ευρώ\" currency_minor: \"λεπτά\"".data)
      ∈ moneyTagGraph "1,50€".data ∧
    moneyVerbGraph "integer_part: \"ένα\" fractional_part: \"πενήντα\" currency: \"ευρώ\" currency_minor: \"λεπτά\"".data = [] ∧
    ("ευρώ ένα και πενήντα λεπτά".data) ∈
      moneyVerbGraph "currency: \"ευρώ\" integer_part: \"ένα\" fractional_part: \"πενήντα\" currency_minor: \"λεπτά\"".data := by
  refine ⟨?_, ?_, ?_⟩
  case refine_2 =>
    have hPre : ∀ t ∈ ("integer_part: \"ένα\" fractional_part: \"πενήντα\" currency: \"ευρώ\" currency_minor: \"λεπτά\"".data).inits,
        currencyV t = [] := by decide
    have hSuf : ∀ t ∈ ("integer_part: \"ένα\" fractional_part: \"πενήντα\" currency: \"ευρώ\" currency_minor: \"λεπτά\"".data).tails,
        currencyV t = [] := by decide
    have hA : graphWithCentsV "integer_part: \"ένα\" fractional_part: \"πενήντα\" currency: \"ευρώ\" currency_minor: \"λεπτά\"".data = [] :=
      seqR_nil_of_left (fun t ht => hPre t ((List.mem_inits _ _).mpr ht))
    have hB : graphCurrencyFirst "integer_part: \"ένα\" fractional_part: \"πενήντα\" currency: \"ευρώ\" currency_minor: \"λεπτά\"".data = [] :=
      seqR_nil_of_left (fun t ht => hPre t ((List.mem_inits _ _).mpr ht))
    have hC : graphIntegerFirst "integer_part: \"ένα\" fractional_part: \"πενήντα\" currency: \"ευρώ\" currency_minor: \"λεπτά\"".data = [] := by
      apply seqR_nil_of_right
      intro t ht
      apply seqR_nil_of_right
      intro t2 ht2
      apply seqR_nil_of_right
      intro t3 ht3
      exact hSuf t3 ((List.mem_tails _ _).mpr (ht3.trans (ht2.trans ht)))
    show (graphWithCentsV _ ++ (graphCurrencyFirst _ ++ graphIntegerFirst _)) = []
    rw [hA, hB, hC]
    rfl
  case refine_1 =>
    apply mem_unionR.mpr
    right
    apply mem_unionR.mpr
    left
    have h7 : ("ευρώ".data ++ "\" currency_minor: \"λεπτά\"".data) ∈
        seqR currencySymbolsR (insertR "\" currency_minor: \"λεπτά\"".data)
          ("€".data ++ []) :=
      mem_seqR_intro _ _ (by decide) (by decide)
    have h6 : ("\" currency: \"".data ++ ("ευρώ".data ++ "\" currency_minor: \"λεπτά\"".data)) ∈
        seqR (insertR "\" currency: \"".data)
          (seqR currencySymbolsR (insertR "\" currency_minor: \"λεπτά\"".data))
          ([] ++ ("€".data ++ [])) :=
      mem_seqR_intro _ _ (by decide) h7
    have h5 : ("πενήντα".data ++ ("\" currency: \"".data ++ ("ευρώ".data ++ "\" currency_minor: \"λεπτά\"".data))) ∈
        seqR fractionalGraph
          (seqR (insertR "\" currency: \"".data)
            (seqR currencySymbolsR (insertR "\" currency_minor: \"λεπτά\"".data)))
          ("50".data ++ ([] ++ ("€".data ++ []))) :=
      mem_seqR_intro _ _ fractionalGraph_fifty_mem h6
    have h4 : (" fractional_part: \"".data ++ ("πενήντα".data ++ ("\" currency: \"".data ++ ("ευρώ".data ++ "\" currency_minor: \"λεπτά\"".data)))) ∈
        seqR (insertR " fractional_part: \"".data)
          (seqR fractionalGraph
            (seqR (insertR "\" currency: \"".data)
              (seqR currencySymbolsR (insertR "\" currency_minor: \"λεπτά\"".data))))
          ([] ++ ("50".data ++ ([] ++ ("€".data ++ [])))) :=
      mem_seqR_intro _ _ (by decide) h5
    have h3 : ([] ++ (" fractional_part: \"".data ++ ("πενήντα".data ++ ("\" currency: \"".data ++ ("ευρώ".data ++ "\" currency_minor: \"λεπτά\"".data))))) ∈
        seqR deleteDecimalSepR
          (seqR (insertR " fractional_part: \"".data)
            (seqR fractionalGraph
              (seqR (insertR "\" currency: \"".data)
                (seqR currencySymbolsR (insertR "\" currency_minor: \"λεπτά\"".data)))))
          (",".data ++ ([] ++ ("50".data ++ ([] ++ ("€".data ++ []))))) :=
      mem_seqR_intro _ _ (by decide) h4
    have h2 : ("\"".data ++ ([] ++ (" fractional_part: \"".data ++ ("πενήντα".data ++ ("\" currency: \"".data ++ ("ευρώ".data ++ "\" currency_minor: \"λεπτά\"".data)))))) ∈
        seqR (insertR "\"".data)
          (seqR deleteDecimalSepR
            (seqR (insertR " fractional_part: \"".data)
              (seqR fractionalGraph
                (seqR (insertR "\" currency: \"".data)
                  (seqR currencySymbolsR (insertR "\" currency_minor: \"λεπτά\"".data))))))
          ([] ++ (",".data ++ ([] ++ ("50".data ++ ([] ++ ("€".data ++ [])))))) :=
      mem_seqR_intro _ _ (by decide) h3
    have h1 : ("ένα".data ++ ("\"".data ++ ([] ++ (" fractional_part: \"".data ++ ("πενήντα".data ++ ("\" currency: \"".data ++ ("ευρώ".data ++ "\" currency_minor: \"λεπτά\"".data))))))) ∈
        seqR integerGraph
          (seqR (insertR "\"".data)
            (seqR deleteDecimalSepR
              (seqR (insertR " fractional_part: \"".data)
                (seqR fractionalGraph
                  (seqR (insertR "\" currency: \"".data)
                    (seqR currencySymbolsR (insertR "\" currency_minor: \"λεπτά\"".data)))))))
          ("1".data ++ ([] ++ (",".data ++ ([] ++ ("50".data ++ ([] ++ ("€".data ++ []))))))) :=
      mem_seqR_intro _ _ integerGraph_one_mem h2
    exact mem_seqR_intro [] _
      (show "integer_part: \"".data ∈ insertR "integer_part: \"".data [] from by decide) h1
  case refine_3 =>
    apply mem_unionR.mpr
    left
    have g8 : ([] ++ (" ".data ++ "λεπτά".data)) ∈
        seqR deleteSpaceR (seqR (insertR " ".data) currencyMinorV)
          (" ".data ++ ([] ++ "currency_minor: \"λεπτά\"".data)) :=
      mem_seqR_intro _ _ (by decide)
        (mem_seqR_intro _ _ (by decide) (by decide))
    have g7 : ("πενήντα".data ++ ([] ++ (" ".data ++ "λεπτά".data))) ∈
        seqR fractionalPartV
          (seqR deleteSpaceR (seqR (insertR " ".data) currencyMinorV))
          ("fractional_part: \"πενήντα\"".data ++ (" ".data ++ ([] ++ "currency_minor: \"λεπτά\"".data))) :=
      mem_seqR_intro _ _ (by decide) g8
    have g6 : (" και ".data ++ ("πενήντα".data ++ ([] ++ (" ".data ++ "λεπτά".data)))) ∈
        seqR (insertR " και ".data)
          (seqR fractionalPartV
            (seqR deleteSpaceR (seqR (insertR " ".data) currencyMinorV)))
          ([] ++ ("fractional_part: \"πενήντα\"".data ++ (" ".data ++ ([] ++ "currency_minor: \"λεπτά\"".data)))) :=
      mem_seqR_intro _ _ (by decide) g7
    have g5 : ([] ++ (" και ".data ++ ("πενήντα".data ++ ([] ++ (" ".data ++ "λεπτά".data))))) ∈
        seqR deleteSpaceR
          (seqR (insertR " και ".data)
            (seqR fractionalPartV
              (seqR deleteSpaceR (seqR (insertR " ".data) currencyMinorV))))
          (" ".data ++ ([] ++ ("fractional_part: \"πενήντα\"".data ++ (" ".data ++ ([] ++ "currency_minor: \"λεπτά\"".data))))) :=
      mem_seqR_intro _ _ (by decide) g6
    have g4 : ("ένα".data ++ ([] ++ (" και ".data ++ ("πενήντα".data ++ ([] ++ (" ".data ++ "λεπτά".data)))))) ∈
        seqR integerPartV
          (seqR deleteSpaceR
            (seqR (insertR " και ".data)
              (seqR fractionalPartV
                (seqR deleteSpaceR (seqR (insertR " ".data) currencyMinorV)))))
          ("integer_part: \"ένα\"".data ++ (" ".data ++ ([] ++ ("fractional_part: \"πενήντα\"".data ++ (" ".data ++ ([] ++ "currency_minor: \"λεπτά\"".data)))))) :=
      mem_seqR_intro _ _ (by decide) g5
    have g3 : ([] ++ ("ένα".data ++ ([] ++ (" και ".data ++ ("πενήντα".data ++ ([] ++ (" ".data ++ "λεπτά".data))))))) ∈
        seqR deleteSpaceR
          (seqR integerPartV
            (seqR deleteSpaceR
              (seqR (insertR " και ".data)
                (seqR fractionalPartV
                  (seqR deleteSpaceR (seqR (insertR " ".data) currencyMinorV))))))
          (" ".data ++ ("integer_part: \"ένα\"".data ++ (" ".data ++ ([] ++ ("fractional_part: \"πενήντα\"".data ++ (" ".data ++ ([] ++ "currency_minor: \"λεπτά\"".data))))))) :=
      mem_seqR_intro _ _ (by decide) g4
    have g2 : (" ".data ++ ([] ++ ("ένα".data ++ ([] ++ (" και ".data ++ ("πενήντα".data ++ ([] ++ (" ".data ++ "λεπτά".data)))))))) ∈
        seqR (insertR " ".data)
          (seqR deleteSpaceR
            (seqR integerPartV
              (seqR deleteSpaceR
                (seqR (insertR " και ".data)
                  (seqR fractionalPartV
                    (seqR deleteSpaceR (seqR (insertR " ".data) currencyMinorV)))))))
          ([] ++ (" ".data ++ ("integer_part: \"ένα\"".data ++ (" ".data ++ ([] ++ ("fractional_part: \"πενήντα\"".data ++ (" ".data ++ ([] ++ "currency_minor: \"λεπτά\"".data)))))))) :=
      mem_seqR_intro _ _ (by decide) g3
    exact mem_seqR_intro "currency: \"ευρώ\"".data _
      (show "ευρώ".data ∈ currencyV "currency: \"ευρώ\"".data from by decide) g2

/-- Claim C8: the digit string "0" renders the zero word, and the fixed
two-digit field value "00" (minutes and seconds share the expression)
renders the zero word, never the empty string. -/
theorem claim_C8_zero_rendering :
    cardGraph "0".data = ["μηδέν".data] ∧
    minutesGraph "00".data = ["μηδέν".data] :=
  ⟨by decide, by decide⟩

/-- Claim C9: every with-cents money tagging ends with the literally
inserted field `currency_minor: "λεπτά"` regardless of the matched
currency symbol, while the loaded minor-currency table maps "$" and "£"
to distinct names that no pattern uses; concretely "$1,50" is tagged with
"λεπτά". -/
theorem claim_C9_currency_minor :
    (∀ s o, o ∈ graphWithCentsBefore s →
      ∃ p, o = p ++ "\" currency_minor: \"λεπτά\"".data) ∧
    (∀ s o, o ∈ graphWithCentsAfter s →
      ∃ p, o = p ++ "\" currency_minor: \"λεπτά\"".data) ∧
    currencyMinorR "$".data = ["σεντς".data] ∧
    currencyMinorR "£".data = ["πένες".data] ∧
    ("currency: \"δολάρια\" integer_part: \"ένα\" fractional_part: \"πενήντα\" currency_minor: \"λεπτά\"".data)
      ∈ graphWithCentsBefore "$1,50".data := by
  refine ⟨graphWithCentsBefore_endsWith, graphWithCentsAfter_endsWith,
    by decide, by decide, ?_⟩
  have k7 : ("πενήντα".data ++ "\" currency_minor: \"λεπτά\"".data) ∈
      seqR fractionalGraph (insertR "\" currency_minor: \"λεπτά\"".data)
        ("50".data ++ []) :=
    mem_seqR_intro _ _ fractionalGraph_fifty_mem (by decide)
  have k6 : (" fractional_part: \"".data ++ ("πενήντα".data ++ "\" currency_minor: \"λεπτά\"".data)) ∈
      seqR (insertR " fractional_part: \"".data)
        (seqR fractionalGraph (insertR "\" currency_minor: \"λεπτά\"".data))
        ([] ++ ("50".data ++ [])) :=
    mem_seqR_intro _ _ (by decide) k7
  have k5 : ([] ++ (" fractional_part: \"".data ++ ("πενήντα".data ++ "\" currency_minor: \"λεπτά\"".data))) ∈
      seqR deleteDecimalSepR
        (seqR (insertR " fractional_part: \"".data)
          (seqR fractionalGraph (insertR "\" currency_minor: \"λεπτά\"".data)))
        (",".data ++ ([] ++ ("50".data ++ []))) :=
    mem_seqR_intro _ _ (by decide) k6
  have k4 : ("\"".data ++ ([] ++ (" fractional_part: \"".data ++ ("πενήντα".data ++ "\" currency_minor: \"λεπτά\"".data)))) ∈
      seqR (insertR "\"".data)
        (seqR deleteDecimalSepR
          (seqR (insertR " fractional_part: \"".data)
            (seqR fractionalGraph (insertR "\" currency_minor: \"λεπτά\"".data))))
        ([] ++ (",".data ++ ([] ++ ("50".data ++ [])))) :=
    mem_seqR_intro _ _ (by decide) k5
  have k3 : ("ένα".data ++ ("\"".data ++ ([] ++ (" fractional_part: \"".data ++ ("πενήντα".data ++ "\" currency_minor: \"λεπτά\"".data))))) ∈
      seqR integerGraph
        (seqR (insertR "\"".data)
          (seqR deleteDecimalSepR
            (seqR (insertR " fractional_part: \"".data)
              (seqR fractionalGraph (insertR "\" currency_minor: \"λεπτά\"".data)))))
        ("1".data ++ ([] ++ (",".data ++ ([] ++ ("50".data ++ []))))) :=
    mem_seqR_intro _ _ integerGraph_one_mem k4
  have k2 : ("\" integer_part: \"".data ++ ("ένα".data ++ ("\"".data ++ ([] ++ (" fractional_part: \"".data ++ ("πενήντα".data ++ "\" currency_minor: \"λεπτά\"".data)))))) ∈
      seqR (insertR "\" integer_part: \"".data)
        (seqR integerGraph
          (seqR (insertR "\"".data)
            (seqR deleteDecimalSepR
              (seqR (insertR " fractional_part: \"".data)
                (seqR fractionalGraph (insertR "\" currency_minor: \"λεπτά\"".data))))))
        ([] ++ ("1".data ++ ([] ++ (",".data ++ ([] ++ ("50".data ++ [])))))) :=
    mem_seqR_intro _ _ (by decide) k3
  have k1 : ("δολάρια".data ++ ("\" integer_part: \"".data ++ ("ένα".data ++ ("\"".data ++ ([] ++ (" fractional_part: \"".data ++ ("πενήντα".data ++ "\" currency_minor: \"λεπτά\"".data))))))) ∈
      seqR currencySymbolsR
        (seqR (insertR "\" integer_part: \"".data)
          (seqR integerGraph
            (seqR (insertR "\"".data)
              (seqR deleteDecimalSepR
                (seqR (insertR " fractional_part: \"".data)
                  (seqR fractionalGraph (insertR "\" currency_minor: \"λεπτά\"".data)))))))
        ("$".data ++ ([] ++ ("1".data ++ ([] ++ (",".data ++ ([] ++ ("50".data ++ []))))))) :=
    mem_seqR_intro _ _ (by decide) k2
  exact mem_seqR_intro [] _
    (show "currency: \"".data ∈ insertR "currency: \"".data [] from by decide) k1

/-- Witness for claim C9 at the tagging of "$1,50". -/
theorem claim_C9_currency_minor_witness :
    ∃ p, ("currency: \"δολάρια\" integer_part: \"ένα\" fractional_part: \"πενήντα\" currency_minor: \"λεπτά\"".data) =
      p ++ "\" currency_minor: \"λεπτά\"".data :=
  claim_C9_currency_minor.1 "$1,50".data _ claim_C9_currency_minor.2.2.2.2

/-- Claim C10: the number-only telephone pattern accepts every non-empty
digit sequence — any length, any leading digits, with no application of
the `greek_prefix` shape acceptor — reading each digit as its own word;
and a concrete input with a separator between digits is also read digit
by digit. -/
theorem claim_C10_telephone :
    (∀ ds : List (Fin 10), ds ≠ [] →
      ("number_part: \"".data ++ joinWords ds ++ "\"".data) ∈
        graphNumberOnly (ds.map finDigitChar)) ∧
    graphNumberOnly "2-10".data = ["number_part: \"δύο ένα μηδέν\"".data] :=
  ⟨telephone_accepts_digits, by decide⟩

/-- Witness for claim C10 at the single digit "5", which has neither ten
digits nor a Greek mobile or landline number shape and is still accepted. -/
theorem claim_C10_telephone_witness :
    ("number_part: \"πέντε\"".data) ∈ graphNumberOnly "5".data :=
  claim_C10_telephone.1 [(5 : Fin 10)] (by decide)

end ElTN
